import Mathlib

/-!
Verification of the collection lifecycle and access-control core of the
laundry-management backend.

The embedding translates, from the TypeScript source:
* `src/middleware/roleAuth.ts` — `requireRole`, `checkOrganizationAccess`;
* `src/services/collectionService.ts` — `validateClientAccess`,
  `checkCollectionAccess`, `canDeleteCollection`, `getCollectionById`,
  `getCollections`, `updateCollection`, `deleteCollection`,
  `getCollectionStats`;
* `src/controllers/collectionController.ts` — the create / get / update /
  delete request pipelines (including the route-level role middleware from
  `src/routes/collection.ts`);
* `src/models/Collection.ts` — the soft-delete / restore instance methods and
  the collection-code-generating pre-save hook;
* `src/services/clientService.ts` — `createClient`, `deleteClient`,
  `restoreClient`, `getAllClients`, `getClientById`;
* the organization service — `deleteOrganization`, `restoreOrganization`,
  `updateOrganization`.

Object ids are modelled as strings (the code compares ids via `toString()`
string equality throughout), the document store as a list of documents, and
fallible service calls as `Except AppError`.
-/

/-- The roles of `type UserRole` in `src/middleware/roleAuth.ts`. -/
inductive Role where
  | user
  | collector
  | supervisor
  | manager
  | admin
deriving DecidableEq, Repr

/-- The collection status enum of `src/models/Collection.ts`. -/
inductive CStatus where
  | pending
  | collected
  | in_transit
  | washing
  | packing
  | delivered
  | cancelled
deriving DecidableEq, Repr

/-- `AppError` of `src/utils/AppError.ts`: a message plus an HTTP status. -/
structure AppError where
  message : String
  statusCode : Nat
deriving DecidableEq, Repr

/-- The authenticated actor context: `req.user` after the auth middleware,
with the role resolved and the assigned client list as id strings. -/
structure Actor where
  id : String
  role : Role
  organizationId : String
  clients : List String
deriving DecidableEq, Repr

/-- A collection document (`ICollection` of `src/models/Collection.ts`),
with ids as strings and times as naturals. -/
structure CollectionDoc where
  id : String
  collectionCode : String
  organizationId : String
  clientId : String
  collectedBy : String
  dateTime : Nat
  status : CStatus
  notes : Option String
  isActive : Bool
  isDeleted : Bool
  deletedAt : Option Nat
  deletedBy : Option String
deriving DecidableEq, Repr

/-- `requireRole` of `src/middleware/roleAuth.ts`: 403 unless the actor's
role is among the allowed roles. -/
def requireRole (allowedRoles : List Role) (u : Actor) : Except AppError Unit :=
  if allowedRoles.contains u.role then
    Except.ok ()
  else
    Except.error ⟨"Access denied. Required role(s) do not include your role", 403⟩

/-- `validateClientAccess` of `src/services/collectionService.ts`:
exact string-equality membership of `clientId` in the user's client list. -/
def validateClientAccess (userClients : List String) (clientId : String) : Bool :=
  userClients.contains clientId

/-- `checkCollectionAccess` of `src/services/collectionService.ts`. -/
def checkCollectionAccess (collection : CollectionDoc) (userId : String)
    (userRole : Option Role) (userClients : Option (List String)) : Bool :=
  -- Admin and managers have full access
  if userRole = some Role.admin ∨ userRole = some Role.manager then
    true
  else
    -- Check if user is the collector or has access to the client
    let isCollector := collection.collectedBy == userId
    let hasClientAccess :=
      match userClients with
      | some cs => cs.contains collection.clientId
      | none => false
    isCollector || hasClientAccess

/-- `canDeleteCollection` of `src/services/collectionService.ts`. -/
def canDeleteCollection (collection : CollectionDoc) (userId : String)
    (userRole : Option Role) : Bool :=
  -- Admin/manager can delete any collection
  if userRole = some Role.admin ∨ userRole = some Role.manager then
    true
  else
    -- Only the collector can delete their own collection
    collection.collectedBy == userId

/-! ### The collection store and the collection service -/

abbrev CollectionStore := List CollectionDoc

/-- The mongo query `{ _id: id, organizationId, isDeleted: false }` used by
`getCollectionById`, `updateCollection` and `deleteCollection` in
`src/services/collectionService.ts`. -/
def collectionQuery (id organizationId : String) (c : CollectionDoc) : Bool :=
  c.id == id && c.organizationId == organizationId && !c.isDeleted

/-- Writing a document back to the store (`document.save()` /
`findByIdAndUpdate`): the document with the same `_id` is replaced. -/
def saveCollection (s : CollectionStore) (c : CollectionDoc) : CollectionStore :=
  s.map (fun d => if d.id == c.id then c else d)

/-- `getCollectionById` of `src/services/collectionService.ts`: `findOne` on
the query, 404 when nothing matches. -/
def svcGetCollectionById (id organizationId : String) (s : CollectionStore) :
    Except AppError CollectionDoc :=
  match s.find? (collectionQuery id organizationId) with
  | none => Except.error ⟨"Collection not found", 404⟩
  | some c => Except.ok c

/-- The `softDelete` instance method of `src/models/Collection.ts` applied to
one document (`save` is the store write in `svcDeleteCollection`). -/
def softDeleteCollectionDoc (deletedBy : String) (now : Nat) (c : CollectionDoc) :
    CollectionDoc :=
  { c with isDeleted := true, isActive := false,
           deletedAt := some now, deletedBy := some deletedBy }

/-- The `restore` instance method of `src/models/Collection.ts`. -/
def restoreCollectionDoc (c : CollectionDoc) : CollectionDoc :=
  { c with isDeleted := false, isActive := true,
           deletedAt := none, deletedBy := none }

/-- `deleteCollection` of `src/services/collectionService.ts`: find the
non-deleted document in the organization, 404 otherwise, then soft delete. -/
def svcDeleteCollection (id organizationId deletedBy : String) (now : Nat)
    (s : CollectionStore) : Except AppError CollectionStore :=
  match s.find? (collectionQuery id organizationId) with
  | none => Except.error ⟨"Collection not found", 404⟩
  | some c => Except.ok (saveCollection s (softDeleteCollectionDoc deletedBy now c))

/-- The update payload `IUpdateCollection` of
`src/services/collectionService.ts` (only provided fields are mutated). -/
structure UpdateCollectionData where
  status : Option CStatus
  notes : Option String
deriving DecidableEq, Repr

/-- The field mutations of `updateCollection`: each provided field is set,
omitted fields keep their previous values. -/
def applyCollectionUpdate (u : UpdateCollectionData) (c : CollectionDoc) :
    CollectionDoc :=
  let c1 := match u.status with
            | some st => { c with status := st }
            | none => c
  match u.notes with
  | some n => { c1 with notes := some n }
  | none => c1

/-- `updateCollection` of `src/services/collectionService.ts`. -/
def svcUpdateCollection (id organizationId : String) (u : UpdateCollectionData)
    (s : CollectionStore) : Except AppError (CollectionDoc × CollectionStore) :=
  match s.find? (collectionQuery id organizationId) with
  | none => Except.error ⟨"Collection not found", 404⟩
  | some c =>
      let c' := applyCollectionUpdate u c
      Except.ok (c', saveCollection s c')

/-! ### Collection-code generation (the pre-save hook of
`src/models/Collection.ts`) -/

/-- Decimal digits of a natural number, most significant first, with
structural fuel so that the definition evaluates by kernel reduction
(`natDigitsF (n + 1) n` always has enough fuel). Models JS `String(n)`. -/
def natDigitsF : Nat → Nat → List Char
  | 0, _ => []
  | fuel + 1, n =>
      if n < 10 then [Nat.digitChar n]
      else natDigitsF fuel (n / 10) ++ [Nat.digitChar (n % 10)]

/-- JS `String(n)` for a natural number. -/
def natToStr (n : Nat) : String := ⟨natDigitsF (n + 1) n⟩

/-- JS `s.padStart(w, '0')`. -/
def padStartZeros (w : Nat) (s : String) : String :=
  if w ≤ s.length then s else ⟨List.replicate (w - s.length) '0' ++ s.data⟩

/-- The generated 4-digit zero-padded sequence suffix:
`String(sequence).padStart(4, '0')`. -/
def pad4 (k : Nat) : String := padStartZeros 4 (natToStr k)

/-- The code predicate of the pre-save hook's query: same organization and
`collectionCode` matching the regex `^px` (a literal string px). -/
def codeMatches (organizationId px : String) (c : CollectionDoc) : Bool :=
  c.organizationId == organizationId &&
    c.collectionCode.data.take px.data.length == px.data

/-- Byte-wise lexicographic comparison of character lists: the string order
used by the store's `sort({ collectionCode: -1 })` (BSON compares UTF-8
bytes; on the ASCII code points of collection codes this is comparison of
code points). -/
def charListLt : List Char → List Char → Bool
  | [], [] => false
  | [], _ :: _ => true
  | _ :: _, [] => false
  | a :: as, b :: bs =>
      if a < b then true
      else if b < a then false
      else charListLt as bs

/-- The store's lexicographic string order. -/
def strLt (s t : String) : Bool := charListLt s.data t.data

/-- The result of `findOne({...}).sort({ collectionCode: -1 })` of the
pre-save hook: the lexicographically greatest matching collection code. -/
def lastCollectionCode? (organizationId px : String) (s : CollectionStore) :
    Option String :=
  (s.filter (codeMatches organizationId px)).foldl
    (fun acc c =>
      match acc with
      | none => some c.collectionCode
      | some m => if strLt m c.collectionCode then some c.collectionCode else some m)
    none

/-- JS `parseInt` on a character list: the maximal leading run of decimal
digits, `none` when there is none (NaN). -/
def parseIntChars (cs : List Char) : Option Nat :=
  let ds := cs.takeWhile Char.isDigit
  if ds.isEmpty then none
  else some (ds.foldl (fun n c => n * 10 + (c.toNat - 48)) 0)

/-- JS `code.slice(-4)`: the last four characters (the whole string when it
is shorter than four characters). -/
def sliceLast4 (s : String) : String := ⟨s.data.drop (s.data.length - 4)⟩

/-- The date part of the generated code: `YYYY` unpadded (JS `getFullYear()`),
then month and day each `padStart(2, '0')`. -/
def datePart (y m d : Nat) : String :=
  natToStr y ++ padStartZeros 2 (natToStr m) ++ padStartZeros 2 (natToStr d)

/-- The code px `COL${year}${month}${day}` of the pre-save hook. -/
def codePx (y m d : Nat) : String := "COL" ++ datePart y m d

/-- The code computed by the pre-save hook of `src/models/Collection.ts`:
parse the last four characters of the lexicographically greatest matching
code, add one (sequence `1` when there is no matching code), and pad.
`String(NaN).padStart(4, '0')` is `"0NaN"` in the unparsable branch. -/
def genNextCollectionCode (organizationId px : String) (s : CollectionStore) :
    String :=
  match lastCollectionCode? organizationId px s with
  | none => px ++ padStartZeros 4 (natToStr 1)
  | some last =>
      match parseIntChars (sliceLast4 last).data with
      | some lastSeq => px ++ padStartZeros 4 (natToStr (lastSeq + 1))
      | none => px ++ "0NaN"

/-! ### The controller / route pipelines for collections
(`src/controllers/collectionController.ts` plus the role middleware
attached in the collection router) -/

/-- The create payload reaching `createCollection` after the controller
fills the defaults (`dateTime || new Date()`, `status || 'pending'`). -/
structure CreateCollectionRequest where
  clientId : String
  dateTime : Option Nat
  status : Option CStatus
  notes : Option String
deriving DecidableEq, Repr

/-- `Collection.create` with the pre-save hook: the new document is stored
with the generated code, `isActive := true`, `isDeleted := false`
(the schema defaults). -/
def svcCreateCollection (actor : Actor) (r : CreateCollectionRequest)
    (newId : String) (now : Nat) (y m d : Nat) (s : CollectionStore) :
    CollectionDoc × CollectionStore :=
  let px := codePx y m d
  let doc : CollectionDoc :=
    { id := newId
      collectionCode := genNextCollectionCode actor.organizationId px s
      organizationId := actor.organizationId
      clientId := r.clientId
      collectedBy := actor.id
      dateTime := r.dateTime.getD now
      status := r.status.getD CStatus.pending
      notes := r.notes
      isActive := true
      isDeleted := false
      deletedAt := none
      deletedBy := none }
  (doc, s ++ [doc])

/-- The create pipeline: route middleware `requireCollectorOrAbove`, then the
controller's `validateClientAccess` check (403 on failure), then creation. -/
def routeCreateCollection (actor : Actor) (r : CreateCollectionRequest)
    (newId : String) (now : Nat) (y m d : Nat) (s : CollectionStore) :
    Except AppError (CollectionDoc × CollectionStore) :=
  match requireRole [Role.collector, Role.supervisor, Role.admin, Role.manager] actor with
  | Except.error e => Except.error e
  | Except.ok _ =>
      if validateClientAccess actor.clients r.clientId then
        Except.ok (svcCreateCollection actor r newId now y m d s)
      else
        Except.error ⟨"You are not authorized to create collections for this client", 403⟩

/-- The get-by-id pipeline of `collectionController.getCollectionById`: fetch
scoped to the actor's organization (404 when absent), then
`checkCollectionAccess` (403 on failure). -/
def routeGetCollectionById (actor : Actor) (id : String) (s : CollectionStore) :
    Except AppError CollectionDoc :=
  match svcGetCollectionById id actor.organizationId s with
  | Except.error e => Except.error e
  | Except.ok c =>
      if checkCollectionAccess c actor.id (some actor.role) (some actor.clients) then
        Except.ok c
      else
        Except.error ⟨"You are not authorized to view this collection", 403⟩

/-- The delete pipeline of `router.delete('/:id')`: the route middleware
`requireManagerOrAdmin`, then the controller's `validateClientAccess`
check — note the controller passes the collection id `id`, not a client id,
to this check — then the scoped fetch, then `canDeleteCollection`, then the
service soft delete. -/
def routeDeleteCollection (actor : Actor) (id : String) (now : Nat)
    (s : CollectionStore) : Except AppError CollectionStore :=
  match requireRole [Role.manager, Role.admin] actor with
  | Except.error e => Except.error e
  | Except.ok _ =>
      if validateClientAccess actor.clients id then
        match svcGetCollectionById id actor.organizationId s with
        | Except.error e => Except.error e
        | Except.ok c =>
            if canDeleteCollection c actor.id (some actor.role) then
              svcDeleteCollection id actor.organizationId actor.id now s
            else
              Except.error ⟨"You are not authorized to delete this collection", 403⟩
      else
        Except.error ⟨"You are not authorized to view collections for this client", 403⟩

/-! ### Collection listing and statistics -/

/-- Descending insertion by `dateTime`, modelling `sort({ dateTime: -1 })`. -/
def insertDateDesc (c : CollectionDoc) : List CollectionDoc → List CollectionDoc
  | [] => [c]
  | d :: ds => if d.dateTime ≤ c.dateTime then c :: d :: ds else d :: insertDateDesc c ds

/-- `sort({ dateTime: -1 })` over a result list. -/
def sortByDateDesc (l : List CollectionDoc) : List CollectionDoc :=
  l.foldr insertDateDesc []

/-- The filters `ICollectionFilters` of `src/services/collectionService.ts`. -/
structure CollectionFilters where
  organizationId : String
  status : Option CStatus
  clientId : Option String
  collectedBy : Option String
  dateFrom : Option Nat
  dateTo : Option Nat
  userRole : Option Role
  userId : String
  userClients : Option (List String)
deriving Repr

/-- The mongo filter built by `getCollections`: mandatory organization and
`isDeleted: false`, the optional explicit filters, and — for a present
`userRole` outside admin/manager — the `$or` visibility narrowing
`collectedBy == userId` or `clientId ∈ userClients || []`. -/
def collectionListFilter (f : CollectionFilters) (c : CollectionDoc) : Bool :=
  c.organizationId == f.organizationId && !c.isDeleted
    && (match f.status with | some st => c.status == st | none => true)
    && (match f.clientId with | some cl => c.clientId == cl | none => true)
    && (match f.collectedBy with | some u => c.collectedBy == u | none => true)
    && (match f.dateFrom with | some t => t ≤ c.dateTime | none => true)
    && (match f.dateTo with | some t => c.dateTime ≤ t | none => true)
    && (match f.userRole with
        | some r =>
            if r = Role.admin ∨ r = Role.manager then true
            else c.collectedBy == f.userId
              || (f.userClients.getD []).contains c.clientId
        | none => true)

/-- `getCollections` of `src/services/collectionService.ts`: filter, sort by
`dateTime` descending, `skip ((page-1)*limit)`, `limit`, and the total count
over the same filter. -/
def svcGetCollections (f : CollectionFilters) (page limit : Nat)
    (s : CollectionStore) : List CollectionDoc × Nat :=
  let matched := s.filter (collectionListFilter f)
  (((sortByDateDesc matched).drop ((page - 1) * limit)).take limit, matched.length)

/-- The optional stats filters of `getCollectionStats`. -/
structure StatsFilters where
  dateFrom : Option Nat
  dateTo : Option Nat
  clientId : Option String
  collectedBy : Option String
deriving Repr

/-- The `baseFilter` of `getCollectionStats`. -/
def statsBaseFilter (organizationId : String) (f : StatsFilters)
    (c : CollectionDoc) : Bool :=
  c.organizationId == organizationId && !c.isDeleted
    && (match f.dateFrom with | some t => t ≤ c.dateTime | none => true)
    && (match f.dateTo with | some t => c.dateTime ≤ t | none => true)
    && (match f.clientId with | some cl => c.clientId == cl | none => true)
    && (match f.collectedBy with | some u => c.collectedBy == u | none => true)

/-- All seven statuses, in schema-enum order. -/
def allStatuses : List CStatus :=
  [CStatus.pending, CStatus.collected, CStatus.in_transit, CStatus.washing,
   CStatus.packing, CStatus.delivered, CStatus.cancelled]

/-- The stats result of `getCollectionStats`. -/
structure CollectionStats where
  totalCollections : Nat
  statusCounts : List (CStatus × Nat)
  recentCollections : List CollectionDoc
deriving Repr

/-- `getCollectionStats` of `src/services/collectionService.ts`: total count
over `baseFilter`; the `$group`-by-status aggregation, which emits one
`(status, count)` bucket per status value that occurs among the matching
documents (and no bucket for the other statuses — the JS code fills
`statusCounts` only from the aggregation result); and the ten most recent
matching collections by `dateTime` descending. The `$group` output order is
unspecified in mongo; buckets are modelled in enum order. -/
def svcGetCollectionStats (organizationId : String) (f : StatsFilters)
    (s : CollectionStore) : CollectionStats :=
  let matched := s.filter (statsBaseFilter organizationId f)
  { totalCollections := matched.length
    statusCounts :=
      (allStatuses.filter (fun st => matched.countP (fun c => c.status == st) ≠ 0)).map
        (fun st => (st, matched.countP (fun c => c.status == st)))
    recentCollections := (sortByDateDesc matched).take 10 }

/-! ### The client store and the client service
(`src/services/clientService.ts`, `src/models/Client.ts`) -/

/-- A client document (`IClient`), with the claim-relevant payload fields. -/
structure ClientDoc where
  id : String
  name : String
  email : String
  phone : String
  organizationId : String
  createdBy : String
  isActive : Bool
  isDeleted : Bool
  deletedAt : Option Nat
  deletedBy : Option String
  createdAt : Nat
  updatedAt : Nat
deriving DecidableEq, Repr

abbrev ClientStore := List ClientDoc

/-- An optional organization scope (`organizationId?` of the service
functions) applied to a query. -/
def orgScopeMatches (scope : Option String) (organizationId : String) : Bool :=
  match scope with
  | some o => organizationId == o
  | none => true

/-- The create payload `ICreateClient` (claim-relevant fields). -/
structure CreateClientData where
  name : String
  email : String
  phone : String
  organizationId : String
  createdBy : String
deriving DecidableEq, Repr

/-- The document persisted by `createClient` of
`src/services/clientService.ts`, with the schema defaults `isActive: true`,
`isDeleted: false`. -/
def newClientDoc (data : CreateClientData) (newId : String) (now : Nat) : ClientDoc :=
  { id := newId, name := data.name, email := data.email, phone := data.phone
    organizationId := data.organizationId, createdBy := data.createdBy
    isActive := true, isDeleted := false, deletedAt := none, deletedBy := none
    createdAt := now, updatedAt := now }

/-- `createClient`'s duplicate check followed by `save`: reject (400) when a
non-deleted client with the same email exists in the same organization. -/
def svcCreateClient (data : CreateClientData) (newId : String) (now : Nat)
    (s : ClientStore) : Except AppError (ClientDoc × ClientStore) :=
  match s.find? (fun c => c.email == data.email
      && c.organizationId == data.organizationId && !c.isDeleted) with
  | some _ =>
      Except.error ⟨"Client with this email already exists in the organization", 400⟩
  | none =>
      Except.ok (newClientDoc data newId now, s ++ [newClientDoc data newId now])

/-- `getClientById` of `src/services/clientService.ts`: `findOne` on
`{ _id, isDeleted: false }` plus the optional organization scope; 404 when
nothing matches. -/
def svcGetClientById (id : String) (scope : Option String) (s : ClientStore) :
    Except AppError ClientDoc :=
  match s.find? (fun c => c.id == id && !c.isDeleted
      && orgScopeMatches scope c.organizationId) with
  | none => Except.error ⟨"Client not found", 404⟩
  | some c => Except.ok c

/-- The default listing of `getAllClients` (no optional filters supplied):
`{ organizationId, isDeleted: false }`. -/
def listClients (organizationId : String) (s : ClientStore) : List ClientDoc :=
  s.filter (fun c => c.organizationId == organizationId && !c.isDeleted)

/-- The default non-deleted collection listing: the mandatory
`{ organizationId, isDeleted: false }` part of `getCollections` with no
optional filters and no role narrowing. -/
def listCollectionsDefault (organizationId : String) (s : CollectionStore) :
    List CollectionDoc :=
  s.filter (fun c => c.organizationId == organizationId && !c.isDeleted)

/-- The `$set` of `deleteClient`'s `findByIdAndUpdate`. -/
def softDeleteClientDoc (deletedBy : String) (now : Nat) (c : ClientDoc) : ClientDoc :=
  { c with isDeleted := true, isActive := false,
           deletedAt := some now, deletedBy := some deletedBy, updatedAt := now }

/-- The `$set`/`$unset` of `restoreClient`'s `findOneAndUpdate`. -/
def restoreClientDoc (now : Nat) (c : ClientDoc) : ClientDoc :=
  { c with isDeleted := false, isActive := true,
           deletedAt := none, deletedBy := none, updatedAt := now }

/-- Writing an updated client back (`findByIdAndUpdate` / `findOneAndUpdate`
write the document with that `_id`). -/
def saveClient (s : ClientStore) (c : ClientDoc) : ClientStore :=
  s.map (fun d => if d.id == c.id then c else d)

/-- `deleteClient` of `src/services/clientService.ts`: `findOne` on
`{ _id, isDeleted: false }` plus the optional organization scope — 404 when
nothing matches (in particular when the client is already soft-deleted) —
then `findByIdAndUpdate` setting the delete markers. -/
def svcDeleteClient (id deletedBy : String) (scope : Option String) (now : Nat)
    (s : ClientStore) : Except AppError ClientStore :=
  match s.find? (fun c => c.id == id && !c.isDeleted
      && orgScopeMatches scope c.organizationId) with
  | none => Except.error ⟨"Client not found", 404⟩
  | some c => Except.ok (saveClient s (softDeleteClientDoc deletedBy now c))

/-- `restoreClient` of `src/services/clientService.ts`: `findOneAndUpdate` on
`{ _id, isDeleted: true }` plus the optional scope, clearing the delete
markers and setting `isActive: true`; 404 when the client is not currently
soft-deleted. -/
def svcRestoreClient (id : String) (scope : Option String) (now : Nat)
    (s : ClientStore) : Except AppError (ClientDoc × ClientStore) :=
  match s.find? (fun c => c.id == id && c.isDeleted
      && orgScopeMatches scope c.organizationId) with
  | none => Except.error ⟨"Client not found or not deleted", 404⟩
  | some c => Except.ok (restoreClientDoc now c, saveClient s (restoreClientDoc now c))

/-- The update payload `IUpdateClient` (claim-relevant fields; note it may
set `isActive`). -/
structure UpdateClientData where
  name : Option String
  email : Option String
  phone : Option String
  isActive : Option Bool
deriving DecidableEq, Repr

/-- The `$set` of `updateClient`: only provided fields are mutated. -/
def applyClientUpdate (u : UpdateClientData) (now : Nat) (c : ClientDoc) : ClientDoc :=
  { c with
    name := u.name.getD c.name
    email := u.email.getD c.email
    phone := u.phone.getD c.phone
    isActive := u.isActive.getD c.isActive
    updatedAt := now }

/-- `updateClient` of `src/services/clientService.ts` (uniqueness re-check
elided to the claim-relevant part): `findOneAndUpdate` on
`{ _id, isDeleted: false }` plus the optional scope. -/
def svcUpdateClient (id : String) (u : UpdateClientData) (scope : Option String)
    (now : Nat) (s : ClientStore) : Except AppError (ClientDoc × ClientStore) :=
  match s.find? (fun c => c.id == id && !c.isDeleted
      && orgScopeMatches scope c.organizationId) with
  | none => Except.error ⟨"Client not found", 404⟩
  | some c => Except.ok (applyClientUpdate u now c, saveClient s (applyClientUpdate u now c))

/-! ### The organization store and service -/

/-- An organization document (`IOrganization`), claim-relevant fields. -/
structure OrganizationDoc where
  id : String
  name : String
  email : String
  isActive : Bool
  isDeleted : Bool
  deletedAt : Option Nat
  deletedBy : Option String
  updatedAt : Nat
deriving DecidableEq, Repr

abbrev OrganizationStore := List OrganizationDoc

/-- `createOrganization`: reject (400) on a non-deleted organization with the
same email, otherwise persist with the schema defaults. -/
def svcCreateOrganization (name email : String) (newId : String) (now : Nat)
    (s : OrganizationStore) : Except AppError (OrganizationDoc × OrganizationStore) :=
  match s.find? (fun o => o.email == email && !o.isDeleted) with
  | some _ => Except.error ⟨"Organization with this email already exists", 400⟩
  | none =>
      let doc : OrganizationDoc :=
        { id := newId, name := name, email := email, isActive := true,
          isDeleted := false, deletedAt := none, deletedBy := none, updatedAt := now }
      Except.ok (doc, s ++ [doc])

/-- Writing an updated organization back. -/
def saveOrganization (s : OrganizationStore) (o : OrganizationDoc) : OrganizationStore :=
  s.map (fun d => if d.id == o.id then o else d)

/-- The default organization listing of `getAllOrganizations`:
`{ isDeleted: false }` with no optional filters. -/
def listOrganizations (s : OrganizationStore) : List OrganizationDoc :=
  s.filter (fun o => !o.isDeleted)

/-- `deleteOrganization`: `findOne` on `{ _id, isDeleted: false }`, 404 when
nothing matches, then `findByIdAndUpdate` setting
`isDeleted: true, isActive: false` and the delete markers. -/
def svcDeleteOrganization (id deletedBy : String) (now : Nat)
    (s : OrganizationStore) : Except AppError OrganizationStore :=
  match s.find? (fun o => o.id == id && !o.isDeleted) with
  | none => Except.error ⟨"Organization not found", 404⟩
  | some o =>
      Except.ok (saveOrganization s
        { o with isDeleted := true, isActive := false,
                 deletedAt := some now, deletedBy := some deletedBy, updatedAt := now })

/-- `restoreOrganization`: `findOneAndUpdate` on `{ _id, isDeleted: true }`,
setting `isDeleted: false, isActive: true` and clearing the markers. -/
def svcRestoreOrganization (id : String) (now : Nat) (s : OrganizationStore) :
    Except AppError (OrganizationDoc × OrganizationStore) :=
  match s.find? (fun o => o.id == id && o.isDeleted) with
  | none => Except.error ⟨"Organization not found or not deleted", 404⟩
  | some o =>
      let o' := { o with isDeleted := false, isActive := true,
                         deletedAt := none, deletedBy := none, updatedAt := now }
      Except.ok (o', saveOrganization s o')

/-- The update payload `IUpdateOrganization` (claim-relevant fields; it may
set `isActive`). -/
structure UpdateOrganizationData where
  name : Option String
  email : Option String
  isActive : Option Bool
deriving DecidableEq, Repr

/-- `updateOrganization`'s `findOneAndUpdate` on `{ _id, isDeleted: false }`
(uniqueness re-check elided to the claim-relevant part). -/
def svcUpdateOrganization (id : String) (u : UpdateOrganizationData) (now : Nat)
    (s : OrganizationStore) : Except AppError (OrganizationDoc × OrganizationStore) :=
  match s.find? (fun o => o.id == id && !o.isDeleted) with
  | none => Except.error ⟨"Organization not found", 404⟩
  | some o =>
      let o' := { o with
                  name := u.name.getD o.name
                  email := u.email.getD o.email
                  isActive := u.isActive.getD o.isActive
                  updatedAt := now }
      Except.ok (o', saveOrganization s o')

/-! ### Route middleware for client routes -/

/-- `checkOrganizationAccess` of `src/middleware/roleAuth.ts`: no
`organizationId` route parameter passes through, and an admin bypasses the
check. For any other role the middleware reads `user.organizationId` after
`User.findById(userId).select('organizationId role')` — but the User schema
defines the path `organization` (`src/models/User.ts`), not `organizationId`,
so `user.organizationId` is `undefined` for every user and the guard
`!user.organizationId || user.organizationId.toString() !== organizationId`
always fires: every non-admin request carrying an `organizationId` path
parameter is denied 403, whatever the parameter. -/
def checkOrganizationAccess (actor : Actor) (paramOrganizationId : Option String) :
    Except AppError Unit :=
  match paramOrganizationId with
  | none => Except.ok ()
  | some _ =>
      if actor.role = Role.admin then Except.ok ()
      else Except.error
        ⟨"Access denied. You can only access resources from your organization", 403⟩

/-- The client get-by-id pipeline of
`router.get('/organizations/:organizationId/clients/:id')`:
`checkOrganizationAccess` on the path parameter, then
`requireSupervisorOrAbove`, then the scoped service fetch. -/
def routeGetClientById (actor : Actor) (paramOrganizationId id : String)
    (s : ClientStore) : Except AppError ClientDoc :=
  match checkOrganizationAccess actor (some paramOrganizationId) with
  | Except.error e => Except.error e
  | Except.ok _ =>
      match requireRole [Role.supervisor, Role.admin, Role.manager] actor with
      | Except.error e => Except.error e
      | Except.ok _ => svcGetClientById id (some paramOrganizationId) s

/-! ### Helper lemmas on the pure access predicates -/

theorem canDeleteCollection_eq_true_iff (c : CollectionDoc) (uid : String) (r : Role) :
    canDeleteCollection c uid (some r) = true ↔
      ((r = Role.admin ∨ r = Role.manager) ∨ c.collectedBy = uid) := by
  unfold canDeleteCollection
  split
  · simp_all
  · next h =>
    simp only [Option.some.injEq] at h
    push_neg at h
    simp [h.1, h.2]

/-! ### C1 — deleting a collection -/

/-- A concrete organization `org1` with one collection `col1` recorded by the
collector `u-coll` for client `cl1`. -/
def c1SampleCollection : CollectionDoc :=
  { id := "col1", collectionCode := "COL202501010001", organizationId := "org1",
    clientId := "cl1", collectedBy := "u-coll", dateTime := 5,
    status := CStatus.pending, notes := none, isActive := true, isDeleted := false,
    deletedAt := none, deletedBy := none }

/-- An admin of `org1` with no assigned clients. -/
def c1AdminActor : Actor := ⟨"u-admin", Role.admin, "org1", []⟩

/-- The collector of `col1` (assigned to client `cl1`). -/
def c1CollectorActor : Actor := ⟨"u-coll", Role.collector, "org1", ["cl1"]⟩

/-- C1: the claim fails on the code. The delete pipeline denies an admin
with 403 (the controller feeds the collection id — not a client id — into
`validateClientAccess` against the actor's assigned-client list, so an admin
whose client list does not contain the collection id is rejected, although
`canDeleteCollection` — "Admin/manager can delete any collection" — would
allow it), and it denies the recorded `collectedBy` collector with 403 at
the `requireManagerOrAdmin` route middleware, although the service-level
rule would allow the self-authored delete. -/
theorem delete_collection_code_bug :
    (routeDeleteCollection c1AdminActor "col1" 10 [c1SampleCollection] =
      Except.error ⟨"You are not authorized to view collections for this client", 403⟩)
    ∧ (routeDeleteCollection c1CollectorActor "col1" 10 [c1SampleCollection] =
      Except.error ⟨"Access denied. Required role(s) do not include your role", 403⟩)
    ∧ canDeleteCollection c1SampleCollection c1AdminActor.id (some c1AdminActor.role) = true
    ∧ canDeleteCollection c1SampleCollection c1CollectorActor.id
        (some c1CollectorActor.role) = true := by
  refine ⟨rfl, rfl, by decide, by decide⟩

/-! ### C2 — creating a collection -/

/-- C2: a create-collection request succeeds only when the actor's role is
collector, supervisor, manager or admin AND the requested `clientId` is a
member (exact string equality) of the actor's assigned clients list; whenever
the `clientId` is not in that list the request is denied with a 403 error,
whatever the role (admin and manager included). -/
theorem create_collection_access (a : Actor) (r : CreateCollectionRequest)
    (newId : String) (now y m d : Nat) (s : CollectionStore) :
    ((∃ res, routeCreateCollection a r newId now y m d s = Except.ok res) →
        (a.role = Role.collector ∨ a.role = Role.supervisor ∨
         a.role = Role.manager ∨ a.role = Role.admin) ∧ r.clientId ∈ a.clients)
    ∧ (r.clientId ∉ a.clients →
        ∃ e, routeCreateCollection a r newId now y m d s = Except.error e ∧
          e.statusCode = 403) := by
  unfold routeCreateCollection requireRole validateClientAccess
  constructor
  · rintro ⟨res, hres⟩
    by_cases hrole : a.role ∈ [Role.collector, Role.supervisor, Role.admin, Role.manager]
    · have hrole' : [Role.collector, Role.supervisor, Role.admin,
          Role.manager].contains a.role = true := by simpa using hrole
      by_cases hcl : r.clientId ∈ a.clients
      · have h3 : a.role = Role.collector ∨ a.role = Role.supervisor ∨
            a.role = Role.manager ∨ a.role = Role.admin := by
          simp only [List.mem_cons, List.mem_singleton, List.not_mem_nil,
            or_false] at hrole
          tauto
        exact ⟨h3, hcl⟩
      · rw [hrole'] at hres
        simp [hcl] at hres
    · have hrole' : [Role.collector, Role.supervisor, Role.admin,
          Role.manager].contains a.role = false := by simpa using hrole
      rw [hrole'] at hres
      simp at hres
  · intro hcl
    have hcl' : a.clients.contains r.clientId = false := by simpa using hcl
    by_cases hrole : a.role ∈ [Role.collector, Role.supervisor, Role.admin, Role.manager]
    · have hrole' : [Role.collector, Role.supervisor, Role.admin,
          Role.manager].contains a.role = true := by simpa using hrole
      exact ⟨⟨"You are not authorized to create collections for this client", 403⟩,
        by rw [hrole']; simp [hcl], rfl⟩
    · have hrole' : [Role.collector, Role.supervisor, Role.admin,
          Role.manager].contains a.role = false := by simpa using hrole
      exact ⟨⟨"Access denied. Required role(s) do not include your role", 403⟩,
        by rw [hrole']; simp, rfl⟩

/-- Witness for `create_collection_access` at a concrete input: the collector
assigned to `cl1` creating for `cl1` succeeds (so the success direction is
not vacuous), and a manager not assigned to `cl9` is denied 403. -/
theorem create_collection_access_witness :
    ("cl9" ∉ (⟨"u-mgr", Role.manager, "org1", ["cl1"]⟩ : Actor).clients)
    ∧ (∃ e, routeCreateCollection ⟨"u-mgr", Role.manager, "org1", ["cl1"]⟩
        ⟨"cl9", none, none, none⟩ "n1" 0 2025 1 1 [] = Except.error e ∧
        e.statusCode = 403) := by
  refine ⟨by decide, ?_⟩
  exact (create_collection_access ⟨"u-mgr", Role.manager, "org1", ["cl1"]⟩
    ⟨"cl9", none, none, none⟩ "n1" 0 2025 1 1 []).2 (by decide)

/-! ### C3 — viewing and updating a collection -/

/-- When every element satisfying the predicate equals `c`, and `c` is a
match in the list, `find?` returns `c`. -/
theorem find?_unique {α : Type} (p : α → Bool) (c : α) :
    ∀ (s : List α), c ∈ s → p c = true → (∀ d ∈ s, p d = true → d = c) →
      s.find? p = some c := by
  intro s
  induction s with
  | nil => intro h; exact absurd h (List.not_mem_nil c)
  | cons d tl ih =>
    intro hmem hpc hall
    by_cases hpd : p d = true
    · have hdc : d = c := hall d (List.mem_cons_self d tl) hpd
      subst hdc
      simp [List.find?_cons, hpc]
    · have hpd' : p d = false := Bool.eq_false_iff.mpr hpd
      have hctl : c ∈ tl := by
        rcases List.mem_cons.mp hmem with h | h
        · exact absurd (h ▸ hpc) (by simpa [h] using hpd)
        · exact h
      rw [List.find?_cons, hpd']
      exact ih hctl hpc (fun d' hd' => hall d' (List.mem_cons_of_mem d hd'))

/-! ### C5 — soft delete is not idempotent -/

/-- Executing a delete against the store: the store is unchanged when the
service call fails (the service throws before any write). -/
def runDeleteCollection (id organizationId deletedBy : String) (now : Nat)
    (s : CollectionStore) : CollectionStore × Option AppError :=
  match svcDeleteCollection id organizationId deletedBy now s with
  | Except.ok s' => (s', none)
  | Except.error e => (s, some e)

/-- Executing a client delete against the store. -/
def runDeleteClient (id deletedBy : String) (scope : Option String) (now : Nat)
    (s : ClientStore) : ClientStore × Option AppError :=
  match svcDeleteClient id deletedBy scope now s with
  | Except.ok s' => (s', none)
  | Except.error e => (s, some e)

/-- Executing an organization delete against the store. -/
def runDeleteOrganization (id deletedBy : String) (now : Nat)
    (s : OrganizationStore) : OrganizationStore × Option AppError :=
  match svcDeleteOrganization id deletedBy now s with
  | Except.ok s' => (s', none)
  | Except.error e => (s, some e)

/-- C5: for each entity type (Collection, Client, Organization), calling
softDelete on an entity that is already soft-deleted fails with a 404
NotFound error and leaves the store unchanged (ids are unique in a mongo
collection, expressed by the uniqueness hypothesis). -/
theorem soft_delete_not_idempotent :
    (∀ (s : CollectionStore) (c : CollectionDoc) (org deletedBy : String) (now : Nat),
      c ∈ s → c.isDeleted = true → (∀ d ∈ s, d.id = c.id → d = c) →
      runDeleteCollection c.id org deletedBy now s =
        (s, some ⟨"Collection not found", 404⟩))
    ∧ (∀ (s : ClientStore) (c : ClientDoc) (scope : Option String)
        (deletedBy : String) (now : Nat),
      c ∈ s → c.isDeleted = true → (∀ d ∈ s, d.id = c.id → d = c) →
      runDeleteClient c.id deletedBy scope now s =
        (s, some ⟨"Client not found", 404⟩))
    ∧ (∀ (s : OrganizationStore) (o : OrganizationDoc) (deletedBy : String) (now : Nat),
      o ∈ s → o.isDeleted = true → (∀ d ∈ s, d.id = o.id → d = o) →
      runDeleteOrganization o.id deletedBy now s =
        (s, some ⟨"Organization not found", 404⟩)) := by
  refine ⟨?_, ?_, ?_⟩
  · intro s c org deletedBy now _ hdel huniq
    have hnone : s.find? (collectionQuery c.id org) = none := by
      rw [List.find?_eq_none]
      intro d hd
      by_cases hid : d.id = c.id
      · have hdc := huniq d hd hid
        subst hdc
        simp [collectionQuery, hdel]
      · simp [collectionQuery, hid]
    unfold runDeleteCollection svcDeleteCollection
    rw [hnone]
  · intro s c scope deletedBy now _ hdel huniq
    have hnone : s.find? (fun d => d.id == c.id && !d.isDeleted
        && orgScopeMatches scope d.organizationId) = none := by
      rw [List.find?_eq_none]
      intro d hd
      by_cases hid : d.id = c.id
      · have hdc := huniq d hd hid
        subst hdc
        simp [hdel]
      · simp [hid]
    unfold runDeleteClient svcDeleteClient
    rw [hnone]
  · intro s o deletedBy now _ hdel huniq
    have hnone : s.find? (fun d => d.id == o.id && !d.isDeleted) = none := by
      rw [List.find?_eq_none]
      intro d hd
      by_cases hid : d.id = o.id
      · have hdo := huniq d hd hid
        subst hdo
        simp [hdel]
      · simp [hid]
    unfold runDeleteOrganization svcDeleteOrganization
    rw [hnone]

/-- A soft-deleted sample client used by the C5 and C6 witnesses. -/
def deletedSampleClient : ClientDoc :=
  { id := "clid1", name := "Acme", email := "a@x.io", phone := "123",
    organizationId := "org1", createdBy := "u1", isActive := false,
    isDeleted := true, deletedAt := some 3, deletedBy := some "u1",
    createdAt := 1, updatedAt := 3 }

/-- Witness for `soft_delete_not_idempotent` at concrete stores. -/
theorem soft_delete_not_idempotent_witness :
    runDeleteClient deletedSampleClient.id "u2" none 9 [deletedSampleClient] =
      ([deletedSampleClient], some ⟨"Client not found", 404⟩) :=
  soft_delete_not_idempotent.2.1 [deletedSampleClient] deletedSampleClient none "u2" 9
    (by decide) (by decide) (by decide)

/-! ### C6 — restore inverts soft delete -/

/-- The client half of C6: soft delete then restore through the client
service round-trips an Active client up to the cleared lifecycle markers
and the update timestamp, the restored client is in the default listing,
and restore on a non-deleted client is 404. -/
theorem restoreClient_roundtrip (s : ClientStore) (c : ClientDoc)
    (deletedBy : String) (t1 t2 : Nat)
    (huniq : ∀ d ∈ s, d.id = c.id → d = c) (hmem : c ∈ s)
    (hdel : c.isDeleted = false) (hact : c.isActive = true) :
    (∃ s1 r, svcDeleteClient c.id deletedBy none t1 s = Except.ok s1 ∧
      svcRestoreClient c.id none t2 s1 = Except.ok r ∧
      r.1 = { c with deletedAt := none, deletedBy := none, updatedAt := t2 } ∧
      r.1 ∈ listClients c.organizationId r.2)
    ∧ svcRestoreClient c.id none t2 s =
        Except.error ⟨"Client not found or not deleted", 404⟩ := by
  have hpc : (fun d : ClientDoc => d.id == c.id && !d.isDeleted
      && orgScopeMatches none d.organizationId) c = true := by
    simp [hdel, orgScopeMatches]
  have hall : ∀ d ∈ s, (fun d : ClientDoc => d.id == c.id && !d.isDeleted
      && orgScopeMatches none d.organizationId) d = true → d = c := by
    intro d hd hp
    simp only [Bool.and_eq_true, beq_iff_eq] at hp
    exact huniq d hd hp.1.1
  have hfind := find?_unique _ c s hmem hpc hall
  set cdel := softDeleteClientDoc deletedBy t1 c with hcdel
  have hid : cdel.id = c.id := rfl
  set s1 := saveClient s cdel with hs1
  constructor
  · have hdelete : svcDeleteClient c.id deletedBy none t1 s = Except.ok s1 := by
      unfold svcDeleteClient
      rw [hfind]
    -- the soft-deleted document is found by the restore query on s1
    have hmem1 : cdel ∈ s1 := by
      rw [hs1]
      unfold saveClient
      exact List.mem_map.mpr ⟨c, hmem, by simp [hid]⟩
    have hpc1 : (fun d : ClientDoc => d.id == c.id && d.isDeleted
        && orgScopeMatches none d.organizationId) cdel = true := by
      simp [hcdel, softDeleteClientDoc, orgScopeMatches]
    have hall1 : ∀ d ∈ s1, (fun d : ClientDoc => d.id == c.id && d.isDeleted
        && orgScopeMatches none d.organizationId) d = true → d = cdel := by
      intro d hd hp
      simp only [Bool.and_eq_true, beq_iff_eq] at hp
      rw [hs1] at hd
      unfold saveClient at hd
      rcases List.mem_map.mp hd with ⟨d0, hd0, hfd⟩
      by_cases h0 : d0.id == cdel.id
      · rw [if_pos h0] at hfd
        exact hfd.symm
      · rw [if_neg h0] at hfd
        subst hfd
        have hdc : d0.id = cdel.id := by rw [hp.1.1, hid]
        exact absurd hdc (by simpa using h0)
    have hfind1 := find?_unique _ cdel s1 hmem1 (by simpa [hid] using hpc1) hall1
    refine ⟨s1, (restoreClientDoc t2 cdel, saveClient s1 (restoreClientDoc t2 cdel)),
      hdelete, ?_, ?_, ?_⟩
    · unfold svcRestoreClient
      rw [hfind1]
    · simp [restoreClientDoc, hcdel, softDeleteClientDoc, hdel, hact]
    · -- the restored document is a member of the default listing
      have hres_id : (restoreClientDoc t2 cdel).id = c.id := rfl
      have hmemres : restoreClientDoc t2 cdel ∈ saveClient s1 (restoreClientDoc t2 cdel) := by
        unfold saveClient
        exact List.mem_map.mpr ⟨cdel, hmem1, by simp [hres_id, hid]⟩
      unfold listClients
      refine List.mem_filter.mpr ⟨hmemres, ?_⟩
      simp [restoreClientDoc, hcdel, softDeleteClientDoc]
  · unfold svcRestoreClient
    have hnone : s.find? (fun d => d.id == c.id && d.isDeleted
        && orgScopeMatches none d.organizationId) = none := by
      rw [List.find?_eq_none]
      intro d hd
      by_cases hid' : d.id = c.id
      · have hdc := huniq d hd hid'
        subst hdc
        simp [hdel]
      · simp [hid']
    rw [hnone]

/-- The organization half of C6, through `deleteOrganization` and
`restoreOrganization`. -/
theorem restoreOrganization_roundtrip (s : OrganizationStore)
    (o : OrganizationDoc) (deletedBy : String) (t1 t2 : Nat)
    (huniq : ∀ d ∈ s, d.id = o.id → d = o) (hmem : o ∈ s)
    (hdel : o.isDeleted = false) (hact : o.isActive = true) :
    (∃ s1 r, svcDeleteOrganization o.id deletedBy t1 s = Except.ok s1 ∧
      svcRestoreOrganization o.id t2 s1 = Except.ok r ∧
      r.1 = { o with deletedAt := none, deletedBy := none, updatedAt := t2 } ∧
      r.1 ∈ listOrganizations r.2)
    ∧ svcRestoreOrganization o.id t2 s =
        Except.error ⟨"Organization not found or not deleted", 404⟩ := by
  have hpc : (fun d : OrganizationDoc => d.id == o.id && !d.isDeleted) o = true := by
    simp [hdel]
  have hall : ∀ d ∈ s, (fun d : OrganizationDoc => d.id == o.id && !d.isDeleted) d =
      true → d = o := by
    intro d hd hp
    simp only [Bool.and_eq_true, beq_iff_eq] at hp
    exact huniq d hd hp.1
  have hfind := find?_unique _ o s hmem hpc hall
  set odel : OrganizationDoc :=
    { o with isDeleted := true, isActive := false,
             deletedAt := some t1, deletedBy := some deletedBy, updatedAt := t1 }
    with hodel
  have hid : odel.id = o.id := rfl
  set s1 := saveOrganization s odel with hs1
  constructor
  · have hdelete : svcDeleteOrganization o.id deletedBy t1 s = Except.ok s1 := by
      unfold svcDeleteOrganization
      rw [hfind]
    have hmem1 : odel ∈ s1 := by
      rw [hs1]
      unfold saveOrganization
      exact List.mem_map.mpr ⟨o, hmem, by simp [hid]⟩
    have hpc1 : (fun d : OrganizationDoc => d.id == o.id && d.isDeleted) odel = true := by
      simp [hodel]
    have hall1 : ∀ d ∈ s1, (fun d : OrganizationDoc => d.id == o.id && d.isDeleted) d =
        true → d = odel := by
      intro d hd hp
      simp only [Bool.and_eq_true, beq_iff_eq] at hp
      rw [hs1] at hd
      unfold saveOrganization at hd
      rcases List.mem_map.mp hd with ⟨d0, hd0, hfd⟩
      by_cases h0 : d0.id == odel.id
      · rw [if_pos h0] at hfd
        exact hfd.symm
      · rw [if_neg h0] at hfd
        subst hfd
        have hdc : d0.id = odel.id := by rw [hp.1, hid]
        exact absurd hdc (by simpa using h0)
    have hfind1 := find?_unique _ odel s1 hmem1 hpc1 hall1
    set ores : OrganizationDoc :=
      { odel with isDeleted := false, isActive := true,
                  deletedAt := none, deletedBy := none, updatedAt := t2 }
      with hores
    refine ⟨s1, (ores, saveOrganization s1 ores), hdelete, ?_, ?_, ?_⟩
    · unfold svcRestoreOrganization
      rw [hfind1]
    · simp [hores, hodel, hdel, hact]
    · have hres_id : ores.id = o.id := rfl
      have hmemres : ores ∈ saveOrganization s1 ores := by
        unfold saveOrganization
        exact List.mem_map.mpr ⟨odel, hmem1, by simp [hres_id, hid]⟩
      unfold listOrganizations
      refine List.mem_filter.mpr ⟨hmemres, ?_⟩
      simp [hores]
  · unfold svcRestoreOrganization
    have hnone : s.find? (fun d => d.id == o.id && d.isDeleted) = none := by
      rw [List.find?_eq_none]
      intro d hd
      by_cases hid' : d.id = o.id
      · have hdc := huniq d hd hid'
        subst hdc
        simp [hdel]
      · simp [hid']
    rw [hnone]

/-- The collection half of C6: the service soft delete succeeds on an Active
collection, the `restore` instance method of `src/models/Collection.ts`
applied to the soft-deleted document round-trips it up to the cleared
lifecycle markers, and saving the restored document puts it back into the
default non-deleted listing. (Collections expose no fallible restore
endpoint; `restore` is the unguarded instance method the claim cites.) -/
theorem restoreCollection_roundtrip (s : CollectionStore) (c : CollectionDoc)
    (deletedBy : String) (t1 : Nat)
    (huniq : ∀ d ∈ s, d.id = c.id → d = c) (hmem : c ∈ s)
    (hdel : c.isDeleted = false) (hact : c.isActive = true) :
    svcDeleteCollection c.id c.organizationId deletedBy t1 s =
      Except.ok (saveCollection s (softDeleteCollectionDoc deletedBy t1 c))
    ∧ restoreCollectionDoc (softDeleteCollectionDoc deletedBy t1 c) =
        { c with deletedAt := none, deletedBy := none }
    ∧ restoreCollectionDoc (softDeleteCollectionDoc deletedBy t1 c) ∈
        listCollectionsDefault c.organizationId
          (saveCollection (saveCollection s (softDeleteCollectionDoc deletedBy t1 c))
            (restoreCollectionDoc (softDeleteCollectionDoc deletedBy t1 c))) := by
  have hpc : collectionQuery c.id c.organizationId c = true := by
    simp [collectionQuery, hdel]
  have hall : ∀ d ∈ s, collectionQuery c.id c.organizationId d = true → d = c := by
    intro d hd hp
    simp only [collectionQuery, Bool.and_eq_true, beq_iff_eq] at hp
    exact huniq d hd hp.1.1
  have hfind := find?_unique _ c s hmem hpc hall
  set cdel := softDeleteCollectionDoc deletedBy t1 c with hcdel
  have hid : cdel.id = c.id := rfl
  refine ⟨?_, ?_, ?_⟩
  · unfold svcDeleteCollection
    rw [hfind]
  · simp [restoreCollectionDoc, hcdel, softDeleteCollectionDoc, hdel, hact]
  · have hmem1 : cdel ∈ saveCollection s cdel := by
      unfold saveCollection
      exact List.mem_map.mpr ⟨c, hmem, by simp [hid]⟩
    have hres_id : (restoreCollectionDoc cdel).id = c.id := rfl
    have hmemres : restoreCollectionDoc cdel ∈
        saveCollection (saveCollection s cdel) (restoreCollectionDoc cdel) := by
      unfold saveCollection
      exact List.mem_map.mpr ⟨cdel, hmem1, by simp [hres_id, hid]⟩
    unfold listCollectionsDefault
    refine List.mem_filter.mpr ⟨hmemres, ?_⟩
    simp [restoreCollectionDoc, hcdel, softDeleteCollectionDoc]

/-- C6: for every entity in the Active state — client, organization or
collection — soft delete followed by restore yields a document equal to the
original in every field except that the lifecycle markers
`deletedAt`/`deletedBy` are cleared and the update timestamp changes (where
one is stored); the restored entity is again in the default (non-deleted)
listing; and the fallible restore operations (client and organization
services) fail with 404 when the entity is not currently soft-deleted. -/
theorem restore_inverts_soft_delete :
    (∀ (s : ClientStore) (c : ClientDoc) (deletedBy : String) (t1 t2 : Nat),
      (∀ d ∈ s, d.id = c.id → d = c) → c ∈ s →
      c.isDeleted = false → c.isActive = true →
      (∃ s1 r, svcDeleteClient c.id deletedBy none t1 s = Except.ok s1 ∧
        svcRestoreClient c.id none t2 s1 = Except.ok r ∧
        r.1 = { c with deletedAt := none, deletedBy := none, updatedAt := t2 } ∧
        r.1 ∈ listClients c.organizationId r.2)
      ∧ svcRestoreClient c.id none t2 s =
          Except.error ⟨"Client not found or not deleted", 404⟩)
    ∧ (∀ (s : OrganizationStore) (o : OrganizationDoc) (deletedBy : String)
        (t1 t2 : Nat),
      (∀ d ∈ s, d.id = o.id → d = o) → o ∈ s →
      o.isDeleted = false → o.isActive = true →
      (∃ s1 r, svcDeleteOrganization o.id deletedBy t1 s = Except.ok s1 ∧
        svcRestoreOrganization o.id t2 s1 = Except.ok r ∧
        r.1 = { o with deletedAt := none, deletedBy := none, updatedAt := t2 } ∧
        r.1 ∈ listOrganizations r.2)
      ∧ svcRestoreOrganization o.id t2 s =
          Except.error ⟨"Organization not found or not deleted", 404⟩)
    ∧ (∀ (s : CollectionStore) (c : CollectionDoc) (deletedBy : String) (t1 : Nat),
      (∀ d ∈ s, d.id = c.id → d = c) → c ∈ s →
      c.isDeleted = false → c.isActive = true →
      svcDeleteCollection c.id c.organizationId deletedBy t1 s =
        Except.ok (saveCollection s (softDeleteCollectionDoc deletedBy t1 c))
      ∧ restoreCollectionDoc (softDeleteCollectionDoc deletedBy t1 c) =
          { c with deletedAt := none, deletedBy := none }
      ∧ restoreCollectionDoc (softDeleteCollectionDoc deletedBy t1 c) ∈
          listCollectionsDefault c.organizationId
            (saveCollection
              (saveCollection s (softDeleteCollectionDoc deletedBy t1 c))
              (restoreCollectionDoc (softDeleteCollectionDoc deletedBy t1 c)))) :=
  ⟨fun s c deletedBy t1 t2 huniq hmem hdel hact =>
      restoreClient_roundtrip s c deletedBy t1 t2 huniq hmem hdel hact,
   fun s o deletedBy t1 t2 huniq hmem hdel hact =>
      restoreOrganization_roundtrip s o deletedBy t1 t2 huniq hmem hdel hact,
   fun s c deletedBy t1 huniq hmem hdel hact =>
      restoreCollection_roundtrip s c deletedBy t1 huniq hmem hdel hact⟩

/-- An active sample client for the C6 witness. -/
def activeSampleClient : ClientDoc :=
  { id := "clid2", name := "Bobs", email := "b@x.io", phone := "456",
    organizationId := "org1", createdBy := "u1", isActive := true,
    isDeleted := false, deletedAt := none, deletedBy := none,
    createdAt := 1, updatedAt := 1 }

/-- An active sample organization for the C6 witness. -/
def activeSampleOrganization : OrganizationDoc :=
  { id := "orgid1", name := "Org", email := "o@x.io", isActive := true,
    isDeleted := false, deletedAt := none, deletedBy := none, updatedAt := 1 }

/-- Witness for `restore_inverts_soft_delete` at concrete stores: one active
client, one active organization and one active collection each round-trip
through soft delete and restore. -/
theorem restore_inverts_soft_delete_witness :
    ((∃ s1 r, svcDeleteClient activeSampleClient.id "u9" none 5 [activeSampleClient] =
        Except.ok s1 ∧
      svcRestoreClient activeSampleClient.id none 7 s1 = Except.ok r ∧
      r.1 = { activeSampleClient with deletedAt := none, deletedBy := none, updatedAt := 7 } ∧
      r.1 ∈ listClients activeSampleClient.organizationId r.2)
    ∧ svcRestoreClient activeSampleClient.id none 7 [activeSampleClient] =
        Except.error ⟨"Client not found or not deleted", 404⟩)
    ∧ ((∃ s1 r, svcDeleteOrganization activeSampleOrganization.id "u9" 5
          [activeSampleOrganization] = Except.ok s1 ∧
      svcRestoreOrganization activeSampleOrganization.id 7 s1 = Except.ok r ∧
      r.1 = { activeSampleOrganization with deletedAt := none, deletedBy := none, updatedAt := 7 } ∧
      r.1 ∈ listOrganizations r.2)
    ∧ svcRestoreOrganization activeSampleOrganization.id 7 [activeSampleOrganization] =
        Except.error ⟨"Organization not found or not deleted", 404⟩)
    ∧ (svcDeleteCollection c1SampleCollection.id c1SampleCollection.organizationId
        "u9" 5 [c1SampleCollection] =
        Except.ok (saveCollection [c1SampleCollection]
          (softDeleteCollectionDoc "u9" 5 c1SampleCollection))
      ∧ restoreCollectionDoc (softDeleteCollectionDoc "u9" 5 c1SampleCollection) =
          { c1SampleCollection with deletedAt := none, deletedBy := none }
      ∧ restoreCollectionDoc (softDeleteCollectionDoc "u9" 5 c1SampleCollection) ∈
          listCollectionsDefault c1SampleCollection.organizationId
            (saveCollection
              (saveCollection [c1SampleCollection]
                (softDeleteCollectionDoc "u9" 5 c1SampleCollection))
              (restoreCollectionDoc (softDeleteCollectionDoc "u9" 5 c1SampleCollection)))) :=
  ⟨restore_inverts_soft_delete.1 [activeSampleClient] activeSampleClient "u9" 5 7
      (by decide) (by decide) (by decide) (by decide),
   restore_inverts_soft_delete.2.1 [activeSampleOrganization] activeSampleOrganization
      "u9" 5 7 (by decide) (by decide) (by decide) (by decide),
   restore_inverts_soft_delete.2.2 [c1SampleCollection] c1SampleCollection "u9" 5
      (by decide) (by decide) (by decide) (by decide)⟩

/-! ### C7 — client email uniqueness per organization -/

/-- Executing a client create against the store: the store is unchanged when
the service call fails (the duplicate check throws before `save`). -/
def runCreateClient (d : CreateClientData) (newId : String) (now : Nat)
    (s : ClientStore) : ClientStore × Option AppError :=
  match svcCreateClient d newId now s with
  | Except.ok (_, s') => (s', none)
  | Except.error e => (s, some e)

/-- C7: creating a client whose email equals an existing non-deleted client's
email in the same organization fails with a Conflict-class (400) error and
persists nothing; the same email in a different organization succeeds; and
the same email in the same organization succeeds once every original is
soft-deleted. -/
theorem client_email_unique_per_org (s : ClientStore) (d : CreateClientData)
    (newId : String) (now : Nat) :
    ((∃ c ∈ s, c.email = d.email ∧ c.organizationId = d.organizationId ∧
        c.isDeleted = false) →
      runCreateClient d newId now s =
        (s, some ⟨"Client with this email already exists in the organization", 400⟩))
    ∧ ((∀ c ∈ s, c.email = d.email → c.organizationId ≠ d.organizationId) →
      ∃ doc, runCreateClient d newId now s = (s ++ [doc], none))
    ∧ ((∀ c ∈ s, c.email = d.email → c.organizationId = d.organizationId →
          c.isDeleted = true) →
      ∃ doc, runCreateClient d newId now s = (s ++ [doc], none)) := by
  refine ⟨?_, ?_, ?_⟩
  · rintro ⟨c, hc, hem, horg, hnd⟩
    unfold runCreateClient svcCreateClient
    cases hf : s.find? (fun c => c.email == d.email
        && c.organizationId == d.organizationId && !c.isDeleted) with
    | none =>
        rw [List.find?_eq_none] at hf
        exact absurd (by simp [hem, horg, hnd]) (hf c hc)
    | some c0 => rfl
  · intro h
    have hf : s.find? (fun c => c.email == d.email
        && c.organizationId == d.organizationId && !c.isDeleted) = none := by
      rw [List.find?_eq_none]
      intro c hc
      by_cases hem : c.email = d.email
      · simp [hem, h c hc hem]
      · simp [hem]
    refine ⟨newClientDoc d newId now, ?_⟩
    unfold runCreateClient svcCreateClient
    rw [hf]
  · intro h
    have hf : s.find? (fun c => c.email == d.email
        && c.organizationId == d.organizationId && !c.isDeleted) = none := by
      rw [List.find?_eq_none]
      intro c hc
      by_cases hem : c.email = d.email
      · by_cases horg : c.organizationId = d.organizationId
        · simp [hem, horg, h c hc hem horg]
        · simp [hem, horg]
      · simp [hem]
    refine ⟨newClientDoc d newId now, ?_⟩
    unfold runCreateClient svcCreateClient
    rw [hf]

/-- Witness for `client_email_unique_per_org`: a non-deleted client with the
same email and organization makes the create fail with 400; with only a
soft-deleted original, the create succeeds. -/
theorem client_email_unique_per_org_witness :
    (runCreateClient ⟨"New", "a@x.io", "9", "org1", "u1"⟩ "nid" 4
        [{ id := "clid1", name := "Acme", email := "a@x.io", phone := "123",
           organizationId := "org1", createdBy := "u1", isActive := true,
           isDeleted := false, deletedAt := none, deletedBy := none,
           createdAt := 1, updatedAt := 1 }] =
      ([{ id := "clid1", name := "Acme", email := "a@x.io", phone := "123",
          organizationId := "org1", createdBy := "u1", isActive := true,
          isDeleted := false, deletedAt := none, deletedBy := none,
          createdAt := 1, updatedAt := 1 }],
        some ⟨"Client with this email already exists in the organization", 400⟩))
    ∧ (∃ doc, runCreateClient ⟨"New", "a@x.io", "9", "org1", "u1"⟩ "nid" 4
        [deletedSampleClient] = ([deletedSampleClient] ++ [doc], none)) := by
  constructor
  · exact (client_email_unique_per_org _ _ "nid" 4).1
      ⟨_, List.mem_singleton.mpr rfl, rfl, rfl, rfl⟩
  · exact (client_email_unique_per_org [deletedSampleClient] _ "nid" 4).2.2
      (by decide)

/-! ### C8 — cross-organization scoping -/

/-- Membership in a sorted collection list is membership in the original. -/
theorem mem_insertDateDesc (a c : CollectionDoc) (l : List CollectionDoc) :
    a ∈ insertDateDesc c l ↔ a = c ∨ a ∈ l := by
  induction l with
  | nil => simp [insertDateDesc]
  | cons d ds ih =>
    unfold insertDateDesc
    by_cases h : d.dateTime ≤ c.dateTime
    · simp [h]
    · simp only [if_neg h, List.mem_cons, ih]
      tauto

/-- Sorting by date preserves the members. -/
theorem mem_sortByDateDesc (a : CollectionDoc) (l : List CollectionDoc) :
    a ∈ sortByDateDesc l ↔ a ∈ l := by
  induction l with
  | nil => simp [sortByDateDesc]
  | cons d ds ih =>
    unfold sortByDateDesc at ih ⊢
    rw [List.foldr_cons, mem_insertDateDesc, ih, List.mem_cons]

/-- Any collection in a page of `getCollections` satisfies the list filter. -/
theorem mem_getCollections_filter (f : CollectionFilters) (page limit : Nat)
    (s : CollectionStore) (c : CollectionDoc)
    (h : c ∈ (svcGetCollections f page limit s).1) :
    collectionListFilter f c = true := by
  unfold svcGetCollections at h
  simp only at h
  have h1 : c ∈ sortByDateDesc (s.filter (collectionListFilter f)) :=
    List.mem_of_mem_drop (List.mem_of_mem_take h)
  exact (List.mem_filter.mp ((mem_sortByDateDesc _ _).mp h1)).2

/-- C8 counterexample input: a non-deleted client of `org1`. -/
def foreignClient : ClientDoc :=
  { id := "clid9", name := "Foreign", email := "f@x.io", phone := "9",
    organizationId := "org1", createdBy := "u1", isActive := true,
    isDeleted := false, deletedAt := none, deletedBy := none,
    createdAt := 1, updatedAt := 1 }

/-- A supervisor scoped to `org2`. -/
def org2Supervisor : Actor := ⟨"u-sup", Role.supervisor, "org2", []⟩

/-- C8 as stated is false for clients: a non-admin supervisor of `org2`
directly fetching the `org1` client at its route
(`GET /organizations/org1/clients/clid9`) receives a 403 Forbidden from the
`checkOrganizationAccess` middleware, not a 404 NotFound. -/
theorem cross_org_fetch_403_counterexample :
    routeGetClientById org2Supervisor "org1" "clid9" [foreignClient] =
      Except.error
        ⟨"Access denied. You can only access resources from your organization", 403⟩ := rfl

/-- C8 (amended): a collection owned by a foreign organization is reported
404 NotFound (never 403) on direct fetch and excluded from listings for every
actor of another organization, and clients of other organizations are
excluded from an organization-scoped listing. For the client get-by-id
route, however, `checkOrganizationAccess` reads the `organizationId` field,
which the User schema does not define (the path is `organization`), so every
non-admin request carrying an `organizationId` path parameter — the actor's
own organization included — is denied 403 before any entity lookup; the 403
depends only on the actor's role, never on the entity, so entity existence
is still not leaked. Only an admin reaches the client service, and there an
out-of-scope client is reported 404 NotFound, not 403. -/
theorem cross_org_scoping (a : Actor) :
    (∀ (s : CollectionStore) (c : CollectionDoc),
      c.organizationId ≠ a.organizationId → (∀ d ∈ s, d.id = c.id → d = c) →
      routeGetCollectionById a c.id s = Except.error ⟨"Collection not found", 404⟩)
    ∧ (∀ (f : CollectionFilters) (page limit : Nat) (s : CollectionStore)
        (c : CollectionDoc), c.organizationId ≠ f.organizationId →
      c ∉ (svcGetCollections f page limit s).1)
    ∧ (∀ (s : ClientStore) (id orgParam : String), a.role ≠ Role.admin →
      routeGetClientById a orgParam id s = Except.error
        ⟨"Access denied. You can only access resources from your organization", 403⟩)
    ∧ (∀ (s : ClientStore) (c : ClientDoc),
      c.organizationId ≠ a.organizationId → c ∉ listClients a.organizationId s)
    ∧ (∀ (s : ClientStore) (c : ClientDoc) (orgParam : String),
      a.role = Role.admin → c.organizationId ≠ orgParam →
      (∀ d ∈ s, d.id = c.id → d = c) →
      routeGetClientById a orgParam c.id s =
        Except.error ⟨"Client not found", 404⟩) := by
  refine ⟨?_, ?_, ?_, ?_, ?_⟩
  · intro s c horg huniq
    have hnone : s.find? (collectionQuery c.id a.organizationId) = none := by
      rw [List.find?_eq_none]
      intro d hd
      by_cases hid : d.id = c.id
      · have hdc := huniq d hd hid
        subst hdc
        simp [collectionQuery, horg]
      · simp [collectionQuery, hid]
    unfold routeGetCollectionById svcGetCollectionById
    rw [hnone]
  · intro f page limit s c horg hc
    have := mem_getCollections_filter f page limit s c hc
    unfold collectionListFilter at this
    simp only [Bool.and_eq_true, beq_iff_eq] at this
    exact horg this.1.1.1.1.1.1.1
  · intro s id orgParam hadm
    unfold routeGetClientById checkOrganizationAccess
    simp [hadm]
  · intro s c horg hc
    unfold listClients at hc
    have := (List.mem_filter.mp hc).2
    simp only [Bool.and_eq_true, beq_iff_eq] at this
    exact horg this.1
  · intro s c orgParam hadm horg huniq
    have hnone : s.find? (fun d => d.id == c.id && !d.isDeleted
        && orgScopeMatches (some orgParam) d.organizationId) = none := by
      rw [List.find?_eq_none]
      intro d hd
      by_cases hid : d.id = c.id
      · have hdc := huniq d hd hid
        subst hdc
        simp [orgScopeMatches, horg]
      · simp [hid]
    unfold routeGetClientById checkOrganizationAccess requireRole svcGetClientById
    simp [hadm, hnone]

/-- Witness for `cross_org_scoping` at concrete inputs: a collector of
`org2` gets 404 for the `org1` collection; the `org2` supervisor is denied
403 on the client route even for `org2`'s own path (the undefined
`organizationId` field); and an `org2` admin fetching the `org1` client
under the `org2` scope gets 404. -/
theorem cross_org_scoping_witness :
    (routeGetCollectionById ⟨"u2", Role.collector, "org2", []⟩
        c1SampleCollection.id [c1SampleCollection] =
      Except.error ⟨"Collection not found", 404⟩)
    ∧ (routeGetClientById org2Supervisor org2Supervisor.organizationId
        foreignClient.id [foreignClient] =
      Except.error
        ⟨"Access denied. You can only access resources from your organization", 403⟩)
    ∧ (routeGetClientById ⟨"u-adm", Role.admin, "org2", []⟩ "org2"
        foreignClient.id [foreignClient] =
      Except.error ⟨"Client not found", 404⟩) := by
  refine ⟨?_, ?_, ?_⟩
  · exact (cross_org_scoping ⟨"u2", Role.collector, "org2", []⟩).1
      [c1SampleCollection] c1SampleCollection (by decide) (by decide)
  · exact (cross_org_scoping org2Supervisor).2.2.1 [foreignClient]
      foreignClient.id org2Supervisor.organizationId (by decide)
  · exact (cross_org_scoping ⟨"u-adm", Role.admin, "org2", []⟩).2.2.2.2
      [foreignClient] foreignClient "org2" rfl (by decide) (by decide)

/-! ### C9 — collection statistics -/

/-- Every status is in the enumeration list. -/
theorem mem_allStatuses (st : CStatus) : st ∈ allStatuses := by
  cases st <;> simp [allStatuses]

/-- Summing the per-status counts over all seven statuses counts every
document exactly once. -/
theorem sum_countP_allStatuses (l : List CollectionDoc) :
    (allStatuses.map (fun st => l.countP (fun c => c.status == st))).sum = l.length := by
  induction l with
  | nil => simp
  | cons c tl ih =>
    simp only [List.countP_cons, allStatuses, List.map_cons, List.map_nil,
      List.sum_cons, List.sum_nil, List.length_cons] at ih ⊢
    cases hc : c.status <;> simp [hc] <;> omega

/-- Dropping the zero-count statuses does not change the sum of counts. -/
theorem sum_filter_ne_zero (g : CStatus → Nat) (sts : List CStatus) :
    ((sts.filter (fun st => g st ≠ 0)).map g).sum = (sts.map g).sum := by
  induction sts with
  | nil => simp
  | cons st tl ih =>
    rw [List.filter_cons]
    by_cases h : g st = 0
    · rw [if_neg (by simp [h])]
      rw [ih]
      simp [h]
    · rw [if_pos (by simp [h])]
      simp only [List.map_cons, List.sum_cons, ih]

/-- A store with a single pending collection of `org1`. -/
def pendingOnlyCollection : CollectionDoc :=
  { id := "colp", collectionCode := "COL202501010001", organizationId := "org1",
    clientId := "cl1", collectedBy := "u1", dateTime := 5,
    status := CStatus.pending, notes := none, isActive := true, isDeleted := false,
    deletedAt := none, deletedBy := none }

/-- C9 as stated is false: the status-to-count mapping produced by
`getCollectionStats` is filled only from the `$group` aggregation buckets,
so a status with no matching collections (here `delivered`) has no entry at
all, not a zero entry. -/
theorem stats_zero_fill_counterexample :
    (svcGetCollectionStats "org1" ⟨none, none, none, none⟩
        [pendingOnlyCollection]).statusCounts = [(CStatus.pending, 1)]
    ∧ (svcGetCollectionStats "org1" ⟨none, none, none, none⟩
        [pendingOnlyCollection]).statusCounts.lookup CStatus.delivered = none
    ∧ (svcGetCollectionStats "org1" ⟨none, none, none, none⟩
        [pendingOnlyCollection]).totalCollections = 1 := by
  refine ⟨by decide, by decide, by decide⟩

/-- C9 (amended): `getCollectionStats` computes the total count, the
status-to-count mapping and the 10 most recent collections all from the same
filter predicate; the mapping has an entry exactly for each status with at
least one matching collection (statuses with none are absent, not
zero-filled); and the sum of the mapping's values equals the total count. -/
theorem stats_consistency (org : String) (f : StatsFilters) (s : CollectionStore) :
    (svcGetCollectionStats org f s).totalCollections =
        (s.filter (statsBaseFilter org f)).length
    ∧ ((svcGetCollectionStats org f s).statusCounts.map Prod.snd).sum =
        (svcGetCollectionStats org f s).totalCollections
    ∧ (∀ st n, (st, n) ∈ (svcGetCollectionStats org f s).statusCounts ↔
        ((s.filter (statsBaseFilter org f)).countP (fun c => c.status == st) = n ∧
          n ≠ 0))
    ∧ (svcGetCollectionStats org f s).recentCollections =
        (sortByDateDesc (s.filter (statsBaseFilter org f))).take 10 := by
  refine ⟨rfl, ?_, ?_, rfl⟩
  · unfold svcGetCollectionStats
    simp only [List.map_map]
    have hcomp : (Prod.snd ∘ fun st => (st,
        (s.filter (statsBaseFilter org f)).countP (fun c => c.status == st))) =
        fun st => (s.filter (statsBaseFilter org f)).countP (fun c => c.status == st) :=
      rfl
    rw [hcomp, sum_filter_ne_zero, sum_countP_allStatuses]
  · intro st n
    unfold svcGetCollectionStats
    simp only [List.mem_map, List.mem_filter, Prod.mk.injEq]
    constructor
    · rintro ⟨st', ⟨_, hne⟩, rfl, rfl⟩
      exact ⟨rfl, by simpa using hne⟩
    · rintro ⟨hcnt, hne⟩
      exact ⟨st, ⟨mem_allStatuses st, by simpa [hcnt] using hne⟩, rfl, hcnt⟩

/-! ### C10 — `isDeleted = true` implies `isActive = false` -/

/-- The cross-cutting lifecycle invariant for clients. -/
def ClientInv (s : ClientStore) : Prop :=
  ∀ c ∈ s, c.isDeleted = true → c.isActive = false

/-- The cross-cutting lifecycle invariant for collections. -/
def CollectionInv (s : CollectionStore) : Prop :=
  ∀ c ∈ s, c.isDeleted = true → c.isActive = false

/-- The cross-cutting lifecycle invariant for organizations. -/
def OrganizationInv (s : OrganizationStore) : Prop :=
  ∀ o ∈ s, o.isDeleted = true → o.isActive = false

/-- Mapping a store through a pointwise-safe function preserves a pointwise
property. -/
theorem inv_of_map {α : Type} (P : α → Prop) (g : α → α) (s : List α)
    (h : ∀ a ∈ s, P (g a)) : ∀ d ∈ s.map g, P d := by
  intro d hd
  rcases List.mem_map.mp hd with ⟨a, ha, rfl⟩
  exact h a ha

/-- The lifecycle operations on clients, as issued through the service layer
(`createClient`, `updateClient`, `deleteClient`, `restoreClient`). -/
inductive ClientOp where
  | create (d : CreateClientData) (newId : String) (now : Nat)
  | update (id : String) (u : UpdateClientData) (scope : Option String) (now : Nat)
  | softDel (id deletedBy : String) (scope : Option String) (now : Nat)
  | restore (id : String) (scope : Option String) (now : Nat)

/-- Running one client operation: a failed service call leaves the store
unchanged. -/
def applyClientOp (op : ClientOp) (s : ClientStore) : ClientStore :=
  match op with
  | ClientOp.create d i n =>
      match svcCreateClient d i n s with
      | Except.ok (_, s') => s'
      | Except.error _ => s
  | ClientOp.update id u sc n =>
      match svcUpdateClient id u sc n s with
      | Except.ok (_, s') => s'
      | Except.error _ => s
  | ClientOp.softDel id by' sc n =>
      match svcDeleteClient id by' sc n s with
      | Except.ok s' => s'
      | Except.error _ => s
  | ClientOp.restore id sc n =>
      match svcRestoreClient id sc n s with
      | Except.ok (_, s') => s'
      | Except.error _ => s

/-- Running a sequence of client operations. -/
def applyClientOps (ops : List ClientOp) (s : ClientStore) : ClientStore :=
  ops.foldl (fun s op => applyClientOp op s) s

/-- The lifecycle operations on collections: create (service create with the
code-generating pre-save hook), update, soft delete, and the
`restore` instance method applied to a fetched document and saved. -/
inductive CollectionOp where
  | create (a : Actor) (r : CreateCollectionRequest) (newId : String)
      (now y m d : Nat)
  | update (id organizationId : String) (u : UpdateCollectionData)
  | softDel (id organizationId deletedBy : String) (now : Nat)
  | restore (id : String)

/-- Running one collection operation. -/
def applyCollectionOp (op : CollectionOp) (s : CollectionStore) : CollectionStore :=
  match op with
  | CollectionOp.create a r newId now y m d => (svcCreateCollection a r newId now y m d s).2
  | CollectionOp.update id org u =>
      match svcUpdateCollection id org u s with
      | Except.ok (_, s') => s'
      | Except.error _ => s
  | CollectionOp.softDel id org by' now =>
      match svcDeleteCollection id org by' now s with
      | Except.ok s' => s'
      | Except.error _ => s
  | CollectionOp.restore id =>
      match s.find? (fun d => d.id == id) with
      | some c => saveCollection s (restoreCollectionDoc c)
      | none => s

/-- Running a sequence of collection operations. -/
def applyCollectionOps (ops : List CollectionOp) (s : CollectionStore) :
    CollectionStore :=
  ops.foldl (fun s op => applyCollectionOp op s) s

/-- The lifecycle operations on organizations. -/
inductive OrganizationOp where
  | create (name email newId : String) (now : Nat)
  | update (id : String) (u : UpdateOrganizationData) (now : Nat)
  | softDel (id deletedBy : String) (now : Nat)
  | restore (id : String) (now : Nat)

/-- Running one organization operation. -/
def applyOrganizationOp (op : OrganizationOp) (s : OrganizationStore) :
    OrganizationStore :=
  match op with
  | OrganizationOp.create nm em i n =>
      match svcCreateOrganization nm em i n s with
      | Except.ok (_, s') => s'
      | Except.error _ => s
  | OrganizationOp.update id u n =>
      match svcUpdateOrganization id u n s with
      | Except.ok (_, s') => s'
      | Except.error _ => s
  | OrganizationOp.softDel id by' n =>
      match svcDeleteOrganization id by' n s with
      | Except.ok s' => s'
      | Except.error _ => s
  | OrganizationOp.restore id n =>
      match svcRestoreOrganization id n s with
      | Except.ok (_, s') => s'
      | Except.error _ => s

/-- Running a sequence of organization operations. -/
def applyOrganizationOps (ops : List OrganizationOp) (s : OrganizationStore) :
    OrganizationStore :=
  ops.foldl (fun s op => applyOrganizationOp op s) s

/-- One client operation preserves the invariant. -/
theorem clientOp_preserves_inv (op : ClientOp) (s : ClientStore)
    (h : ClientInv s) : ClientInv (applyClientOp op s) := by
  cases op with
  | create d i n =>
    cases hf : s.find? (fun c => c.email == d.email
        && c.organizationId == d.organizationId && !c.isDeleted) with
    | some c0 =>
      simpa only [applyClientOp, svcCreateClient, hf] using h
    | none =>
      simp only [applyClientOp, svcCreateClient, hf]
      intro c hc hdel
      rcases List.mem_append.mp hc with hmem | hmem
      · exact h c hmem hdel
      · rcases List.mem_singleton.mp hmem with rfl
        simp [newClientDoc] at hdel
  | update id u sc n =>
    cases hf : s.find? (fun c => c.id == id && !c.isDeleted
        && orgScopeMatches sc c.organizationId) with
    | none =>
      simpa only [applyClientOp, svcUpdateClient, hf] using h
    | some c0 =>
      have hc0 : (!c0.isDeleted) = true := by
        have := List.find?_some hf
        simp only [Bool.and_eq_true] at this
        exact this.1.2
      simp only [applyClientOp, svcUpdateClient, hf, saveClient]
      refine inv_of_map _ _ s (fun a ha => ?_)
      by_cases hid : a.id == (applyClientUpdate u n c0).id
      · rw [if_pos hid]
        intro hdel
        simp only [applyClientUpdate] at hdel
        simp [hdel] at hc0
      · rw [if_neg hid]
        exact h a ha
  | softDel id by' sc n =>
    cases hf : s.find? (fun c => c.id == id && !c.isDeleted
        && orgScopeMatches sc c.organizationId) with
    | none =>
      simpa only [applyClientOp, svcDeleteClient, hf] using h
    | some c0 =>
      simp only [applyClientOp, svcDeleteClient, hf, saveClient]
      refine inv_of_map _ _ s (fun a ha => ?_)
      by_cases hid : a.id == (softDeleteClientDoc by' n c0).id
      · rw [if_pos hid]
        intro _
        rfl
      · rw [if_neg hid]
        exact h a ha
  | restore id sc n =>
    cases hf : s.find? (fun c => c.id == id && c.isDeleted
        && orgScopeMatches sc c.organizationId) with
    | none =>
      simpa only [applyClientOp, svcRestoreClient, hf] using h
    | some c0 =>
      simp only [applyClientOp, svcRestoreClient, hf, saveClient]
      refine inv_of_map _ _ s (fun a ha => ?_)
      by_cases hid : a.id == (restoreClientDoc n c0).id
      · rw [if_pos hid]
        intro hdel
        simp [restoreClientDoc] at hdel
      · rw [if_neg hid]
        exact h a ha

/-- One collection operation preserves the invariant. -/
theorem collectionOp_preserves_inv (op : CollectionOp) (s : CollectionStore)
    (h : CollectionInv s) : CollectionInv (applyCollectionOp op s) := by
  cases op with
  | create a r newId now y m d =>
    simp only [applyCollectionOp, svcCreateCollection]
    intro c hc hdel
    rcases List.mem_append.mp hc with hmem | hmem
    · exact h c hmem hdel
    · rcases List.mem_singleton.mp hmem with rfl
      simp at hdel
  | update id org u =>
    cases hf : s.find? (collectionQuery id org) with
    | none =>
      simpa only [applyCollectionOp, svcUpdateCollection, hf] using h
    | some c0 =>
      have hc0 : (!c0.isDeleted) = true := by
        have := List.find?_some hf
        simp only [collectionQuery, Bool.and_eq_true] at this
        exact this.2
      simp only [applyCollectionOp, svcUpdateCollection, hf, saveCollection]
      refine inv_of_map _ _ s (fun a ha => ?_)
      by_cases hid : a.id == (applyCollectionUpdate u c0).id
      · rw [if_pos hid]
        intro hdel
        have hsame : (applyCollectionUpdate u c0).isDeleted = c0.isDeleted := by
          unfold applyCollectionUpdate
          cases u.status <;> cases u.notes <;> rfl
        rw [hsame] at hdel
        simp [hdel] at hc0
      · rw [if_neg hid]
        exact h a ha
  | softDel id org by' now =>
    cases hf : s.find? (collectionQuery id org) with
    | none =>
      simpa only [applyCollectionOp, svcDeleteCollection, hf] using h
    | some c0 =>
      simp only [applyCollectionOp, svcDeleteCollection, hf, saveCollection]
      refine inv_of_map _ _ s (fun a ha => ?_)
      by_cases hid : a.id == (softDeleteCollectionDoc by' now c0).id
      · rw [if_pos hid]
        intro _
        rfl
      · rw [if_neg hid]
        exact h a ha
  | restore id =>
    cases hf : s.find? (fun d => d.id == id) with
    | none =>
      simpa only [applyCollectionOp, hf] using h
    | some c0 =>
      simp only [applyCollectionOp, hf, saveCollection]
      refine inv_of_map _ _ s (fun a ha => ?_)
      by_cases hid : a.id == (restoreCollectionDoc c0).id
      · rw [if_pos hid]
        intro hdel
        simp [restoreCollectionDoc] at hdel
      · rw [if_neg hid]
        exact h a ha

/-- One organization operation preserves the invariant. -/
theorem organizationOp_preserves_inv (op : OrganizationOp) (s : OrganizationStore)
    (h : OrganizationInv s) : OrganizationInv (applyOrganizationOp op s) := by
  cases op with
  | create nm em i n =>
    cases hf : s.find? (fun o => o.email == em && !o.isDeleted) with
    | some o0 =>
      simpa only [applyOrganizationOp, svcCreateOrganization, hf] using h
    | none =>
      simp only [applyOrganizationOp, svcCreateOrganization, hf]
      intro o ho hdel
      rcases List.mem_append.mp ho with hmem | hmem
      · exact h o hmem hdel
      · rcases List.mem_singleton.mp hmem with rfl
        simp at hdel
  | update id u n =>
    cases hf : s.find? (fun o => o.id == id && !o.isDeleted) with
    | none =>
      simpa only [applyOrganizationOp, svcUpdateOrganization, hf] using h
    | some o0 =>
      have ho0 : (!o0.isDeleted) = true := by
        have := List.find?_some hf
        simp only [Bool.and_eq_true] at this
        exact this.2
      simp only [applyOrganizationOp, svcUpdateOrganization, hf, saveOrganization]
      refine inv_of_map _ _ s (fun a ha => ?_)
      by_cases hid : a.id == o0.id
      · rw [if_pos hid]
        intro hdel
        simp only at hdel
        simp [hdel] at ho0
      · rw [if_neg hid]
        exact h a ha
  | softDel id by' n =>
    cases hf : s.find? (fun o => o.id == id && !o.isDeleted) with
    | none =>
      simpa only [applyOrganizationOp, svcDeleteOrganization, hf] using h
    | some o0 =>
      simp only [applyOrganizationOp, svcDeleteOrganization, hf, saveOrganization]
      refine inv_of_map _ _ s (fun a ha => ?_)
      by_cases hid : a.id == o0.id
      · rw [if_pos hid]
        intro _
        rfl
      · rw [if_neg hid]
        exact h a ha
  | restore id n =>
    cases hf : s.find? (fun o => o.id == id && o.isDeleted) with
    | none =>
      simpa only [applyOrganizationOp, svcRestoreOrganization, hf] using h
    | some o0 =>
      simp only [applyOrganizationOp, svcRestoreOrganization, hf, saveOrganization]
      refine inv_of_map _ _ s (fun a ha => ?_)
      by_cases hid : a.id == o0.id
      · rw [if_pos hid]
        intro hdel
        simp at hdel
      · rw [if_neg hid]
        exact h a ha

/-- C10: every sequence of lifecycle operations on clients, collections and
organizations preserves the invariant that `isDeleted = true` implies
`isActive = false`: creates initialize `isDeleted = false`, soft deletes set
both flags in the same write, restores set `isDeleted = false` together with
`isActive = true`, and updates only match non-deleted documents — so no
reachable store holds a document with `isDeleted = true` and
`isActive = true`. -/
theorem lifecycle_preserves_deleted_inactive :
    (∀ (ops : List ClientOp) (s : ClientStore),
      ClientInv s → ClientInv (applyClientOps ops s))
    ∧ (∀ (ops : List CollectionOp) (s : CollectionStore),
      CollectionInv s → CollectionInv (applyCollectionOps ops s))
    ∧ (∀ (ops : List OrganizationOp) (s : OrganizationStore),
      OrganizationInv s → OrganizationInv (applyOrganizationOps ops s)) := by
  refine ⟨?_, ?_, ?_⟩
  · intro ops
    induction ops with
    | nil => intro s h; exact h
    | cons op tl ih =>
      intro s h
      exact ih (applyClientOp op s) (clientOp_preserves_inv op s h)
  · intro ops
    induction ops with
    | nil => intro s h; exact h
    | cons op tl ih =>
      intro s h
      exact ih (applyCollectionOp op s) (collectionOp_preserves_inv op s h)
  · intro ops
    induction ops with
    | nil => intro s h; exact h
    | cons op tl ih =>
      intro s h
      exact ih (applyOrganizationOp op s) (organizationOp_preserves_inv op s h)

/-- Witness for `lifecycle_preserves_deleted_inactive`: a concrete
create-then-delete run from the empty store keeps the invariant. -/
theorem lifecycle_preserves_deleted_inactive_witness :
    ClientInv (applyClientOps
      [ClientOp.create ⟨"Acme", "a@x.io", "1", "org1", "u1"⟩ "c1" 1,
       ClientOp.softDel "c1" "u1" none 2] []) :=
  lifecycle_preserves_deleted_inactive.1
    [ClientOp.create ⟨"Acme", "a@x.io", "1", "org1", "u1"⟩ "c1" 1,
     ClientOp.softDel "c1" "u1" none 2] [] (by intro c hc; cases hc)

/-! ### C4 — collection-code generation: digit groundwork -/

/-- The four decimal digits (zero-padded) of a sequence number below 10000. -/
def quadData (k : Nat) : List Char :=
  [Nat.digitChar (k / 1000), Nat.digitChar (k / 100 % 10),
   Nat.digitChar (k / 10 % 10), Nat.digitChar (k % 10)]

theorem digitChar_lt_iff :
    ∀ x < 10, ∀ y < 10, ((Nat.digitChar x < Nat.digitChar y) ↔ x < y) := by decide

theorem digitChar_inj :
    ∀ x < 10, ∀ y < 10, (Nat.digitChar x = Nat.digitChar y ↔ x = y) := by decide

theorem digitChar_isDigit : ∀ x < 10, (Nat.digitChar x).isDigit = true := by decide

theorem digitChar_toNat_sub : ∀ x < 10, (Nat.digitChar x).toNat - 48 = x := by decide

theorem natDigitsF_small (f n : Nat) (hf : 0 < f) (hn : n < 10) :
    natDigitsF f n = [Nat.digitChar n] := by
  cases f with
  | zero => omega
  | succ f => simp [natDigitsF, hn]

theorem natDigitsF_large (f n : Nat) (hf : 0 < f) (hn : 10 ≤ n) :
    natDigitsF f n = natDigitsF (f - 1) (n / 10) ++ [Nat.digitChar (n % 10)] := by
  cases f with
  | zero => omega
  | succ f => simp [natDigitsF, Nat.not_lt.mpr hn]

/-- Below 10000 the padded code suffix is exactly the four zero-padded
decimal digits. -/
theorem pad4_data (k : Nat) (hk : k < 10000) : (pad4 k).data = quadData k := by
  unfold pad4 natToStr padStartZeros quadData
  have hd0 : Nat.digitChar 0 = '0' := by decide
  by_cases h1 : k < 10
  · rw [natDigitsF_small (k + 1) k (by omega) h1]
    have e0 : k / 1000 = 0 := by omega
    have e1 : k / 100 % 10 = 0 := by omega
    have e2 : k / 10 % 10 = 0 := by omega
    have e3 : k % 10 = k := by omega
    simp [String.length, e0, e1, e2, e3, hd0, List.replicate]
  · by_cases h2 : k < 100
    · rw [natDigitsF_large (k + 1) k (by omega) (by omega)]
      simp only [Nat.add_sub_cancel]
      rw [natDigitsF_small k (k / 10) (by omega) (by omega)]
      have e0 : k / 1000 = 0 := by omega
      have e1 : k / 100 % 10 = 0 := by omega
      have e2 : k / 10 % 10 = k / 10 := by omega
      simp [String.length, e0, e1, e2, hd0, List.replicate]
    · by_cases h3 : k < 1000
      · rw [natDigitsF_large (k + 1) k (by omega) (by omega)]
        simp only [Nat.add_sub_cancel]
        rw [natDigitsF_large k (k / 10) (by omega) (by omega)]
        rw [natDigitsF_small (k - 1) (k / 10 / 10) (by omega) (by omega)]
        have e0 : k / 1000 = 0 := by omega
        have e1 : k / 10 / 10 = k / 100 := by omega
        have e2 : k / 100 % 10 = k / 100 := by omega
        have e3 : k / 10 % 10 = k / 10 % 10 := rfl
        simp [String.length, e0, e1, e2, hd0, List.replicate]
      · rw [natDigitsF_large (k + 1) k (by omega) (by omega)]
        simp only [Nat.add_sub_cancel]
        rw [natDigitsF_large k (k / 10) (by omega) (by omega)]
        rw [natDigitsF_large (k - 1) (k / 10 / 10) (by omega) (by omega)]
        rw [natDigitsF_small (k - 1 - 1) (k / 10 / 10 / 10) (by omega) (by omega)]
        have e1 : k / 10 / 10 = k / 100 := by omega
        have e2 : k / 10 / 10 / 10 = k / 1000 := by omega
        have e3 : k / 100 % 10 = k / 10 / 10 % 10 := by omega
        have e4 : k / 100 / 10 = k / 1000 := by omega
        simp [String.length, e1, e2, e4, hd0]

/-- `parseIntChars` recovers the sequence number from its padded digits. -/
theorem parseIntChars_pad4 (k : Nat) (hk : k < 10000) :
    parseIntChars (pad4 k).data = some k := by
  rw [pad4_data k hk]
  unfold parseIntChars quadData
  have b3 : k / 1000 < 10 := by omega
  have b2 : k / 100 % 10 < 10 := by omega
  have b1 : k / 10 % 10 < 10 := by omega
  have b0 : k % 10 < 10 := by omega
  simp only [List.takeWhile, digitChar_isDigit _ b3, digitChar_isDigit _ b2,
    digitChar_isDigit _ b1, digitChar_isDigit _ b0, List.isEmpty_cons,
    Bool.false_eq_true, if_false, List.foldl]
  rw [digitChar_toNat_sub _ b3, digitChar_toNat_sub _ b2, digitChar_toNat_sub _ b1,
    digitChar_toNat_sub _ b0]
  congr 1
  omega

/-- A single comparison step on digit characters mirrors the comparison of
the digits. -/
theorem quad_step (x y : Nat) (hx : x < 10) (hy : y < 10) (t e1 e2 : Bool) :
    (if Nat.digitChar x < Nat.digitChar y then t
     else if Nat.digitChar y < Nat.digitChar x then e1 else e2) =
    (if x < y then t else if y < x then e1 else e2) := by
  rcases Nat.lt_trichotomy x y with h | h | h
  · rw [if_pos ((digitChar_lt_iff _ hx _ hy).mpr h), if_pos h]
  · subst h
    rw [if_neg (lt_irrefl _), if_neg (lt_irrefl _), if_neg (lt_irrefl _),
      if_neg (lt_irrefl _)]
  · have hnot : ¬ (Nat.digitChar x < Nat.digitChar y) := fun hc =>
      absurd ((digitChar_lt_iff _ hx _ hy).mp hc) (by omega)
    rw [if_neg hnot, if_pos ((digitChar_lt_iff _ hy _ hx).mpr h),
      if_neg (by omega : ¬ x < y), if_pos h]

/-- The store's lexicographic order on padded suffixes is the numeric order
of the sequence numbers (fixed-width zero-padding). -/
theorem charListLt_pad4_iff (k m : Nat) (hk : k < 10000) (hm : m < 10000) :
    (charListLt (pad4 k).data (pad4 m).data = true) ↔ k < m := by
  rw [pad4_data k hk, pad4_data m hm]
  unfold quadData
  have bk3 : k / 1000 < 10 := by omega
  have bk2 : k / 100 % 10 < 10 := by omega
  have bk1 : k / 10 % 10 < 10 := by omega
  have bk0 : k % 10 < 10 := by omega
  have bm3 : m / 1000 < 10 := by omega
  have bm2 : m / 100 % 10 < 10 := by omega
  have bm1 : m / 10 % 10 < 10 := by omega
  have bm0 : m % 10 < 10 := by omega
  simp only [charListLt]
  rw [quad_step _ _ bk3 bm3, quad_step _ _ bk2 bm2, quad_step _ _ bk1 bm1,
    quad_step _ _ bk0 bm0]
  split_ifs <;> simp <;> omega

/-- Comparing two strings with a common left part compares the remainders. -/
theorem charListLt_append (p : List Char) :
    ∀ s t, charListLt (p ++ s) (p ++ t) = charListLt s t := by
  induction p with
  | nil => intro s t; rfl
  | cons a as ih =>
    intro s t
    simp only [List.cons_append, charListLt]
    rw [if_neg (lt_irrefl a), if_neg (lt_irrefl a)]
    exact ih s t

/-- The string version of `charListLt_append`. -/
theorem strLt_append (px x y : String) :
    strLt (px ++ x) (px ++ y) = charListLt x.data y.data := by
  unfold strLt
  rw [String.data_append, String.data_append, charListLt_append]

/-- `code.slice(-4)` on a code of the generated shape returns the padded
sequence suffix. -/
theorem sliceLast4_append (px : String) (k : Nat) (hk : k < 10000) :
    sliceLast4 (px ++ pad4 k) = pad4 k := by
  unfold sliceLast4
  rw [String.data_append]
  have hlen : (pad4 k).data.length = 4 := by rw [pad4_data k hk]; rfl
  rw [List.length_append, hlen]
  have harith : px.data.length + 4 - 4 = px.data.length := by omega
  rw [harith, List.drop_left]

/-- The numeric maximum of a list of sequence numbers (`0` for the empty
list, so `max + 1` starts the sequence at `1`). -/
def natMaxList : List Nat → Nat
  | [] => 0
  | k :: l => Nat.max k (natMaxList l)

/-- The numeric suffix parsed from a stored collection code
(`parseInt(code.slice(-4))`). -/
def seqOfCode (c : CollectionDoc) : Option Nat :=
  parseIntChars (sliceLast4 c.collectionCode).data

/-- The parsed sequence numbers of the codes matching the organization-and-
date px. -/
def seqsOf (organizationId px : String) (s : CollectionStore) : List Nat :=
  (s.filter (codeMatches organizationId px)).filterMap seqOfCode

theorem natMaxList_le (b : Nat) : ∀ (l : List Nat), (∀ x ∈ l, x ≤ b) →
    natMaxList l ≤ b := by
  intro l
  induction l with
  | nil => intro _; simp [natMaxList]
  | cons k tl ih =>
    intro h
    simp only [natMaxList, Nat.max_le]
    exact ⟨h k (List.mem_cons_self k tl),
      ih (fun x hx => h x (List.mem_cons_of_mem k hx))⟩

/-- The fold of the pre-save hook's descending sort: starting from a
well-formed accumulator, it returns the code with the numerically greatest
suffix. -/
theorem foldl_lastCode (px : String) (cs : List CollectionDoc) :
    ∀ (a : Nat), 1 ≤ a → a ≤ 9999 →
      (∀ c ∈ cs, ∃ k, 1 ≤ k ∧ k ≤ 9999 ∧ c.collectionCode = px ++ pad4 k) →
      cs.foldl (fun acc c =>
          match acc with
          | none => some c.collectionCode
          | some m => if strLt m c.collectionCode then some c.collectionCode else some m)
        (some (px ++ pad4 a)) =
        some (px ++ pad4 (Nat.max a (natMaxList (cs.filterMap seqOfCode)))) := by
  induction cs with
  | nil =>
    intro a h1 h2 _
    simp [natMaxList]
  | cons c tl ih =>
    intro a h1 h2 hwf
    obtain ⟨k, hk1, hk2, hcode⟩ := hwf c (List.mem_cons_self c tl)
    rw [List.foldl_cons]
    have hstep : (match some (px ++ pad4 a) with
        | none => some c.collectionCode
        | some m => if strLt m c.collectionCode then some c.collectionCode
            else some m) = some (px ++ pad4 (Nat.max a k)) := by
      simp only
      rw [hcode]
      by_cases hlt : a < k
      · have hc : strLt (px ++ pad4 a) (px ++ pad4 k) = true := by
          rw [strLt_append]
          exact (charListLt_pad4_iff a k (by omega) (by omega)).mpr hlt
        have hmax : Nat.max a k = k := Nat.max_eq_right (Nat.le_of_lt hlt)
        rw [if_pos hc, hmax]
      · have hc : strLt (px ++ pad4 a) (px ++ pad4 k) = false := by
          rw [strLt_append]
          rw [Bool.eq_false_iff]
          intro hc
          exact absurd ((charListLt_pad4_iff a k (by omega) (by omega)).mp hc) hlt
        have hmax : Nat.max a k = a := Nat.max_eq_left (by omega)
        rw [if_neg (by simp [hc]), hmax]
    rw [hstep]
    rw [ih (Nat.max a k) (Nat.le_trans h1 (Nat.le_max_left a k))
      (Nat.max_le.mpr ⟨h2, hk2⟩)
      (fun c' hc' => hwf c' (List.mem_cons_of_mem c hc'))]
    have hseq : seqOfCode c = some k := by
      unfold seqOfCode
      rw [hcode, sliceLast4_append px k (by omega), parseIntChars_pad4 k (by omega)]
    rw [List.filterMap_cons, hseq]
    simp only [natMaxList]
    exact congrArg (fun z => some (px ++ pad4 z))
      (Nat.max_assoc a k (natMaxList (List.filterMap seqOfCode tl)))

/-- C4: when no `collectionCode` is supplied, the pre-save hook generates
`COL + YYYY + MM + DD + suffix`, where the suffix is the 4-digit zero-padded
successor of the numeric suffix of the lexicographically greatest existing
code with that organization-and-date px (equivalently, of the numeric
maximum of the existing suffixes — lexicographic max equals numeric max for
fixed-width zero-padded suffixes in `1..9999`), and is `0001` when no such
code exists. -/
theorem collection_code_generation (y mo dy : Nat) (organizationId : String)
    (s : CollectionStore)
    (hwf : ∀ c ∈ s, codeMatches organizationId (codePx y mo dy) c = true →
      ∃ k, 1 ≤ k ∧ k ≤ 9999 ∧ c.collectionCode = codePx y mo dy ++ pad4 k) :
    (genNextCollectionCode organizationId (codePx y mo dy) s =
      codePx y mo dy ++
        pad4 (natMaxList (seqsOf organizationId (codePx y mo dy) s) + 1))
    ∧ (s.filter (codeMatches organizationId (codePx y mo dy)) = [] →
        genNextCollectionCode organizationId (codePx y mo dy) s =
          codePx y mo dy ++ "0001")
    ∧ (s.filter (codeMatches organizationId (codePx y mo dy)) ≠ [] →
        lastCollectionCode? organizationId (codePx y mo dy) s =
          some (codePx y mo dy ++
            pad4 (natMaxList (seqsOf organizationId (codePx y mo dy) s)))) := by
  have hwf' : ∀ c ∈ s.filter (codeMatches organizationId (codePx y mo dy)),
      ∃ k, 1 ≤ k ∧ k ≤ 9999 ∧ c.collectionCode = codePx y mo dy ++ pad4 k := by
    intro c hc
    exact hwf c (List.mem_filter.mp hc).1 (List.mem_filter.mp hc).2
  cases hcs : s.filter (codeMatches organizationId (codePx y mo dy)) with
  | nil =>
    have hseqs : seqsOf organizationId (codePx y mo dy) s = [] := by
      unfold seqsOf
      rw [hcs]
      rfl
    have hlast : lastCollectionCode? organizationId (codePx y mo dy) s = none := by
      unfold lastCollectionCode?
      rw [hcs]
      rfl
    refine ⟨?_, fun _ => ?_, fun hne => absurd rfl hne⟩
    · unfold genNextCollectionCode
      rw [hlast, hseqs]
      rfl
    · unfold genNextCollectionCode
      rw [hlast]
      have : ("0001" : String) = padStartZeros 4 (natToStr 1) := by decide
      rw [this]
  | cons c tl =>
    rw [hcs] at hwf'
    obtain ⟨k, hk1, hk2, hcode⟩ := hwf' c (List.mem_cons_self c tl)
    have hbound : ∀ x ∈ seqsOf organizationId (codePx y mo dy) s,
        1 ≤ x ∧ x ≤ 9999 := by
      intro x hx
      unfold seqsOf at hx
      rw [hcs] at hx
      rcases List.mem_filterMap.mp hx with ⟨c', hc', hpx⟩
      obtain ⟨k', hk1', hk2', hcode'⟩ := hwf' c' hc'
      have : seqOfCode c' = some k' := by
        unfold seqOfCode
        rw [hcode', sliceLast4_append _ k' (by omega), parseIntChars_pad4 k' (by omega)]
      rw [this] at hpx
      rcases Option.some.injEq .. ▸ hpx with rfl
      omega
    have hseqs : seqsOf organizationId (codePx y mo dy) s =
        k :: tl.filterMap seqOfCode := by
      unfold seqsOf
      rw [hcs, List.filterMap_cons]
      have : seqOfCode c = some k := by
        unfold seqOfCode
        rw [hcode, sliceLast4_append _ k (by omega), parseIntChars_pad4 k (by omega)]
      rw [this]
    have hlast : lastCollectionCode? organizationId (codePx y mo dy) s =
        some (codePx y mo dy ++
          pad4 (natMaxList (seqsOf organizationId (codePx y mo dy) s))) := by
      unfold lastCollectionCode?
      rw [hcs, List.foldl_cons]
      have hstep0 : (match (none : Option String) with
          | none => some c.collectionCode
          | some m => if strLt m c.collectionCode then some c.collectionCode
              else some m) = some (codePx y mo dy ++ pad4 k) := by
        simp only
        rw [hcode]
      rw [hstep0]
      rw [foldl_lastCode (codePx y mo dy) tl k hk1 hk2
        (fun c' hc' => hwf' c' (List.mem_cons_of_mem c hc'))]
      rw [hseqs]
      rfl
    have hM : natMaxList (seqsOf organizationId (codePx y mo dy) s) ≤ 9999 :=
      natMaxList_le 9999 _ (fun x hx => (hbound x hx).2)
    refine ⟨?_, fun heq => absurd heq (by simp), fun _ => hlast⟩
    have hred : genNextCollectionCode organizationId (codePx y mo dy) s =
        match parseIntChars (sliceLast4 (codePx y mo dy ++
            pad4 (natMaxList (seqsOf organizationId (codePx y mo dy) s)))).data with
        | some lastSeq => codePx y mo dy ++ padStartZeros 4 (natToStr (lastSeq + 1))
        | none => codePx y mo dy ++ "0NaN" := by
      unfold genNextCollectionCode
      rw [hlast]
    rw [hred, sliceLast4_append _ _ (by omega), parseIntChars_pad4 _ (by omega)]
    rfl

/-- The C4 witness store: organization `org1` already has codes
`...0002` and `...0007` for 2025-01-01, and another organization has
`...0099`, which must not influence `org1`'s sequence. -/
def c4Doc1 : CollectionDoc :=
  { id := "k1", collectionCode := "COL202501010002", organizationId := "org1",
    clientId := "cl1", collectedBy := "u1", dateTime := 1,
    status := CStatus.pending, notes := none, isActive := true, isDeleted := false,
    deletedAt := none, deletedBy := none }

def c4Doc2 : CollectionDoc :=
  { c4Doc1 with id := "k2", collectionCode := "COL202501010007" }

def c4Doc3 : CollectionDoc :=
  { c4Doc1 with id := "k3", collectionCode := "COL202501010099", organizationId := "org2" }

/-- Witness for `collection_code_generation`: the generated `org1` code for
2025-01-01 over the sample store is `COL202501010008` (one above the
numeric/lexicographic maximum `0007`, ignoring `org2`'s `0099`). -/
theorem collection_code_generation_witness :
    genNextCollectionCode "org1" (codePx 2025 1 1) [c4Doc1, c4Doc2, c4Doc3] =
      "COL202501010008" := by
  have hwf : ∀ c ∈ [c4Doc1, c4Doc2, c4Doc3],
      codeMatches "org1" (codePx 2025 1 1) c = true →
      ∃ k, 1 ≤ k ∧ k ≤ 9999 ∧ c.collectionCode = codePx 2025 1 1 ++ pad4 k := by
    intro c hc hm
    rcases List.mem_cons.mp hc with rfl | hc
    · exact ⟨2, by omega, by omega, by decide⟩
    rcases List.mem_cons.mp hc with rfl | hc
    · exact ⟨7, by omega, by omega, by decide⟩
    rcases List.mem_cons.mp hc with rfl | hc
    · exact absurd hm (by decide)
    · exact absurd hc (List.not_mem_nil c)
  have h := (collection_code_generation 2025 1 1 "org1" [c4Doc1, c4Doc2, c4Doc3] hwf).1
  rw [h]
  decide

example : validateClientAccess ["c1", "c2"] "c2" = true := by decide
example : pad4 1 = "0001" := by decide
example : pad4 123 = "0123" := by decide
example : natToStr 2025 = "2025" := by decide
example : codePx 2025 10 12 = "COL20251012" := by decide
